import Mathlib

/-!
Verification of the markdown_converter repository's adapter, settings, engine
and CLI logic against its natural-language specification.

The Python code is shallowly embedded: JSON values (the shapes produced by
`json.load`) are the inductive `JValue`; Python `dict.get`, truthiness, `or`,
`str.lower()` and attribute errors are modelled explicitly; code that can
raise returns `Except String α` where the error string names the Python
exception class.  Numbers are modelled as `Int` (none of the verified claims
involve floats).
-/

set_option maxHeartbeats 1000000

/-- A parsed JSON value, as returned by Python's `json.load`. -/
inductive JValue where
  | null
  | bool (b : Bool)
  | num (n : Int)
  | str (s : String)
  | arr (xs : List JValue)
  | obj (kvs : List (String × JValue))

namespace JValue

/-- Python truthiness of a JSON value (`bool(v)`). -/
def truthy : JValue → Bool
  | .null => false
  | .bool b => b
  | .num n => n != 0
  | .str s => s != ""
  | .arr xs => !xs.isEmpty
  | .obj kvs => !kvs.isEmpty

/-- `isinstance(v, dict)`. -/
def isObj : JValue → Bool
  | .obj _ => true
  | _ => false

/-- `isinstance(v, list)`. -/
def isArr : JValue → Bool
  | .arr _ => true
  | _ => false

/-- `isinstance(v, str)`. -/
def isStr : JValue → Bool
  | .str _ => true
  | _ => false

end JValue

open JValue

/-- First binding of `k` in an association list, if any (`k in d` / `d[k]`;
a `json.load`-produced dict has unique keys, so first match is the value). -/
def jlookup (kvs : List (String × JValue)) (k : String) : Option JValue :=
  match kvs with
  | [] => none
  | (k', v) :: rest => if k' = k then some v else jlookup rest k

/-- Python `d.get(k)`: the stored value, or `None` when absent. -/
def jget (kvs : List (String × JValue)) (k : String) : JValue :=
  (jlookup kvs k).getD .null

/-- Python `k in d` for a dict. -/
def hasKey (kvs : List (String × JValue)) (k : String) : Bool :=
  (jlookup kvs k).isSome

/-- Python `a or b`. -/
def pyOr (a b : JValue) : JValue :=
  if a.truthy then a else b

/-- Python `v.get(k)`: works on dicts, raises `AttributeError` otherwise. -/
def pyGetObj (v : JValue) (k : String) : Except String JValue :=
  match v with
  | .obj kvs => .ok (jget kvs k)
  | _ => .error "AttributeError"

/-- Python `v.get(k, d)` with explicit default (present keys win, even when
their value is `null`). -/
def pyGetObjD (v : JValue) (k : String) (d : JValue) : Except String JValue :=
  match v with
  | .obj kvs => .ok ((jlookup kvs k).getD d)
  | _ => .error "AttributeError"

/-- Python `s.lower()` on a string (ASCII case mapping, like
`String.toLower`, but defined over the character list so that it reduces
definitionally). -/
def strLower (s : String) : String :=
  ⟨s.data.map Char.toLower⟩

/-- Python `v.lower()`: works on strings, raises `AttributeError` otherwise. -/
def pyLower (v : JValue) : Except String String :=
  match v with
  | .str s => .ok (strLower s)
  | _ => .error "AttributeError"

/-! ## src/app/adapters/detector.py -/

/-- One element of a `messages` list counts for claude detection when it is
a mapping whose `role` is `'user'` or `'assistant'` (lines 22-23). -/
def claudeRoleHit (m : JValue) : Bool :=
  match m with
  | .obj mk =>
    match jget mk "role" with
    | .str r => r == "user" || r == "assistant"
    | _ => false
  | _ => false

/-- `detect_source_format` (src/app/adapters/detector.py, lines 7-26). -/
def detect_source_format (data : JValue) : String :=
  match data with
  | .obj kvs =>
    if hasKey kvs "run_settings" || hasKey kvs "runSettings" ||
       hasKey kvs "chunkedPrompt" || hasKey kvs "systemInstruction" then "aistudio"
    else if hasKey kvs "mapping" || hasKey kvs "current_node" then "chatgpt"
    else
      match jlookup kvs "messages" with
      | some (.arr ms) =>
        if ms.any claudeRoleHit then "claude" else "unknown"
      | _ => "unknown"
  | _ => "unknown"

/-! ## src/app/adapters/normalize.py

A normalized message is the dict
`{'role': r, 'content': c, 'timestamp': t, 'meta': m}`. -/

structure NMsg where
  role : JValue
  content : JValue
  timestamp : JValue
  meta : JValue

/-- Flat joining of a message `content` list in `_normalize_aistudio`
(lines 17-25): mapping parts contribute a string `text` field, plain strings
pass through, everything else is skipped. -/
def aiFlatten (ps : List JValue) : String :=
  String.intercalate "\n" (ps.filterMap fun p =>
    match p with
    | .obj pk =>
      match jget pk "text" with
      | .str t => some t
      | _ => none
    | .str s => some s
    | _ => none)

/-- The `messages` loop of `_normalize_aistudio` (lines 13-31). -/
def aiMsgLoop : List JValue → Except String (List NMsg)
  | [] => .ok []
  | m :: rest =>
    match m with
    | .obj mk => do
      let content0 := pyOr (jget mk "content") (jget mk "text")
      let content1 :=
        match content0 with
        | .arr ps => JValue.str (aiFlatten ps)
        | _ => content0
      let role ← pyLower (pyOr (jget mk "role") (.str ""))
      let tail ← aiMsgLoop rest
      pure (⟨.str role, pyOr content1 (.str ""),
             pyOr (jget mk "timestamp") (jget mk "time"), .obj []⟩ :: tail)
    | _ => aiMsgLoop rest

/-- Joining `chunk.parts` in the `chunkedPrompt` branch (lines 40-45): only
mapping parts with a string `text` contribute. -/
def chunkParts (ps : List JValue) : String :=
  String.intercalate "\n" (ps.filterMap fun p =>
    match p with
    | .obj pk =>
      match jget pk "text" with
      | .str t => some t
      | _ => none
    | _ => none)

/-- The `chunkedPrompt.chunks` loop of `_normalize_aistudio` (lines 34-51). -/
def aiChunkLoop : List JValue → Except String (List NMsg)
  | [] => .ok []
  | ch :: rest =>
    match ch with
    | .obj ck =>
      if (jget ck "isThought").truthy then aiChunkLoop rest
      else do
        let content0 := jget ck "text"
        let content1 :=
          if !content0.truthy then
            match jget ck "parts" with
            | .arr ps => JValue.str (chunkParts ps)
            | _ => content0
          else content0
        let role ← pyLower (pyOr (jget ck "role") (.str "assistant"))
        let tail ← aiChunkLoop rest
        pure (⟨.str role, pyOr content1 (.str ""),
               pyOr (jget ck "timestamp") (jget ck "time"), .obj []⟩ :: tail)
    | _ => aiChunkLoop rest

/-- `_normalize_aistudio` (lines 9-52). -/
def _normalize_aistudio (data : JValue) : Except String (List NMsg) := do
  let mv ← pyGetObj data "messages"
  match mv with
  | .arr items => aiMsgLoop items
  | _ => do
    let cp ← pyGetObjD data "chunkedPrompt" (.obj [])
    let chunksv ← pyGetObj cp "chunks"
    match chunksv with
    | .arr chunks => aiChunkLoop chunks
    | _ => pure []

/-- Segment extraction in `_normalize_claude` (lines 101-107): mapping
segments with a string `text` contribute it, strings pass through. -/
def claudeSegJoin (ps : List JValue) : String :=
  String.intercalate "\n" (ps.filterMap fun p =>
    match p with
    | .obj pk =>
      match jget pk "text" with
      | .str t => some t
      | _ => none
    | .str s => some s
    | _ => none)

/-- The `messages` loop of `_normalize_claude` (lines 95-114). -/
def claudeLoop : List JValue → Except String (List NMsg)
  | [] => .ok []
  | m :: rest =>
    match m with
    | .obj mk => do
      let role ← pyLower (pyOr (jget mk "role") (.str ""))
      let content0 := jget mk "content"
      let content1 :=
        match content0 with
        | .arr ps => JValue.str (claudeSegJoin ps)
        | _ => content0
      let tail ← claudeLoop rest
      match content1 with
      | .str c =>
        pure (⟨.str role, .str c,
               pyOr (jget mk "timestamp") (jget mk "created_at"), .obj []⟩ :: tail)
      | _ => pure tail
    | _ => claudeLoop rest

/-- `_normalize_claude` (lines 91-115). -/
def _normalize_claude (data : JValue) : Except String (List NMsg) := do
  let mv ← pyGetObj data "messages"
  match mv with
  | .arr items => claudeLoop items
  | _ => pure []

/-! The `_normalize_chatgpt` traversal (lines 55-88).  Python pops from the
end of `stack` and appends children at the end; we keep the stack reversed
(head = Python's end).  The `while` loop is modelled with explicit fuel; the
caller supplies fuel strictly greater than the loop's decreasing measure, so
the `"OutOfFuel"` branch is unreachable (proved below for well-shaped input). -/

/-- Weight contributed by one mapping value's `children` field to the
termination measure: how many entries iterating over it can push. -/
def childLen : JValue → Nat
  | .arr xs => xs.length
  | .str s => s.data.length
  | .obj kvs => kvs.length
  | _ => 0

/-- `children` weight of a mapping node value. -/
def cw : JValue → Nat
  | .obj kvs => childLen (jget kvs "children")
  | _ => 0

/-- Equality of hashable JSON scalars, used for `visited` membership.  Only
`null`, booleans, numbers and strings ever enter `visited` (unhashable keys
raise before insertion); in the data this code sees, keys are strings. -/
def keyEq : JValue → JValue → Bool
  | .null, .null => true
  | .bool a, .bool b => a == b
  | .num a, .num b => a == b
  | .str a, .str b => a == b
  | _, _ => false

/-- `key in visited`. -/
def visMem (key : JValue) (visited : List JValue) : Bool :=
  visited.any (keyEq key)

/-- Termination measure part: total weight of mapping entries whose key has
not been visited yet. -/
def wUnvisited (m : List (String × JValue)) (visited : List JValue) : Nat :=
  match m with
  | [] => 0
  | (k, v) :: rest =>
    (if visMem (JValue.str k) visited then 0 else 1 + cw v) + wUnvisited rest visited

/-- `for ch in (node.get('children') or [])`: Python iterates lists, strings
(over one-character strings) and dicts (over keys), and raises `TypeError`
for numbers and booleans. -/
def childPush (c : JValue) : Except String (List JValue) :=
  match c with
  | .arr xs => .ok xs
  | .str s => .ok (s.data.map fun ch => JValue.str (String.singleton ch))
  | .obj kvs => .ok (kvs.map fun kv => JValue.str kv.1)
  | _ => .error "TypeError"

/-- One iteration of the `while stack:` loop of `_normalize_chatgpt`
(lines 70-87), for a key that has not been visited yet: returns the keys to
push and the extended message list, or the raised exception. -/
def cgStep (title : JValue) (mapping : List (String × JValue)) (key : JValue)
    (msgs : List NMsg) : Except String (List JValue × List NMsg) := do
  let node0 :=
    match key with
    | .str s => jget mapping s
    | _ => JValue.null
  let node := pyOr node0 (.obj [])
  let msgv ← pyGetObj node "message"
  let msg := pyOr msgv (.obj [])
  let auv ← pyGetObj msg "author"
  let author0 := pyOr auv (.obj [])
  let rolev ← pyGetObj author0 "role"
  let author ← pyLower (pyOr rolev (.str ""))
  let cv ← pyGetObj msg "content"
  let text :=
    match cv with
    | .obj ck =>
      match jget ck "parts" with
      | .arr ps =>
        String.intercalate "\n" (ps.filterMap fun p =>
          match p with
          | .str s => some s
          | _ => none)
      | _ => ""
    | _ => ""
  let msgs' :=
    if author ≠ "" ∧ text ≠ "" then
      msgs ++ [⟨.str author, .str text,
        pyOr (match msg with | .obj mk => jget mk "create_time" | _ => .null)
             (match node with | .obj nk => jget nk "create_time" | _ => .null),
        .obj [("title", title)]⟩]
    else msgs
  let chv ← pyGetObj node "children"
  let c := pyOr chv (.arr [])
  let pushes ← childPush c
  pure (pushes, msgs')

/-- The `while stack:` loop of `_normalize_chatgpt` (lines 65-87). -/
def cgWalk (title : JValue) (mapping : List (String × JValue)) :
    Nat → List JValue → List JValue → List NMsg → Except String (List NMsg)
  | 0, _, _, _ => .error "OutOfFuel"
  | _ + 1, [], _, msgs => .ok msgs
  | fuel + 1, key :: rest, visited, msgs =>
    -- `if key in visited`: hashing an unhashable key raises TypeError first
    match key with
    | .obj _ => .error "TypeError"
    | .arr _ => .error "TypeError"
    | _ =>
      if visMem key visited then cgWalk title mapping fuel rest visited msgs
      else
        match cgStep title mapping key msgs with
        | .error e => .error e
        | .ok (pushes, msgs') =>
          cgWalk title mapping fuel (pushes.reverse ++ rest) (key :: visited) msgs'

/-- Root selection (line 63): keys whose value is not a dict with a truthy
`parent`. -/
def cgRoots (mapping : List (String × JValue)) : List JValue :=
  (mapping.filter fun kv =>
    !(match kv.2 with
      | .obj vk => (jget vk "parent").truthy
      | _ => false)).map fun kv => JValue.str kv.1

/-- `_normalize_chatgpt` (lines 55-88). -/
def _normalize_chatgpt (data : JValue) : Except String (List NMsg) := do
  let mappingv ← pyGetObj data "mapping"
  match mappingv with
  | .obj m =>
    let title :=
      match data with
      | .obj dk => jget dk "title"
      | _ => .null
    let stack0 := (cgRoots m).reverse
    cgWalk title m (stack0.length + wUnvisited m [] + 1) stack0 [] []
  | _ => pure []

/-- The generic `messages[]` fallback loop of `normalize_conversation`
(lines 131-143). -/
def genericLoop : List JValue → Except String (List NMsg)
  | [] => .ok []
  | item :: rest =>
    match item with
    | .obj ik => do
      let text := pyOr (jget ik "content") (pyOr (jget ik "text") (.str ""))
      let role ← pyLower (pyOr (jget ik "role") (.str ""))
      let tail ← genericLoop rest
      pure (⟨.str role, text,
             pyOr (jget ik "timestamp") (jget ik "time"), .obj []⟩ :: tail)
    | _ => genericLoop rest

/-- The fallback block of `normalize_conversation` (lines 130-143). -/
def genericMessages (data : JValue) : Except String (List NMsg) := do
  let mv ← pyGetObj data "messages"
  match mv with
  | .arr items => genericLoop items
  | _ => pure []

/-- Lines 137-143 continuation: after the claude attempt, a non-empty claude
result is returned, otherwise the generic fallback runs. -/
def normalize_tail2 (data : JValue) (fmt : String) (out2 : List NMsg) :
    Except String (List NMsg) :=
  if fmt = "claude" ∧ ¬out2.isEmpty then pure out2 else genericMessages data

/-- Lines 126-143 continuation: after the chatgpt attempt, a non-empty
chatgpt result is returned, otherwise the claude attempt (only under format
`claude`) and then the generic fallback run. -/
def normalize_tail1 (data : JValue) (fmt : String) (out1 : List NMsg) :
    Except String (List NMsg) :=
  if fmt = "chatgpt" ∧ ¬out1.isEmpty then pure out1
  else (if fmt = "claude" then _normalize_claude data else pure []) >>=
    normalize_tail2 data fmt

/-- The body of `normalize_conversation` after format resolution
(lines 120-143): `aistudio` returns its result directly; a non-empty
`chatgpt`/`claude` result is returned; otherwise the generic fallback runs. -/
def normalize_dispatch (data : JValue) (fmt : String) :
    Except String (List NMsg) :=
  if fmt = "aistudio" then _normalize_aistudio data
  else (if fmt = "chatgpt" then _normalize_chatgpt data else pure []) >>=
    normalize_tail1 data fmt

/-- `normalize_conversation` (lines 118-143): line 119 resolves the format
(`prefer` when truthy and not `'auto'`, else the detector), the rest
dispatches on it. -/
def normalize_conversation (data : JValue) (prefer : String) :
    Except String (List NMsg) :=
  normalize_dispatch data
    (if prefer ≠ "" ∧ prefer ≠ "auto" then prefer else detect_source_format data)

/-! ## Well-shapedness

`normalize_conversation` does raise on some inputs (see the counterexamples
below).  The following decidable predicate characterises a sufficient
well-shapedness condition under which no path raises: the document is a
mapping; `role` fields reachable from `messages`, `chunkedPrompt.chunks` and
`mapping.*.message.author` are strings or falsy; a present `chunkedPrompt` is
a mapping; truthy `mapping` node values are mappings whose truthy `message` /
`author` fields are mappings and whose truthy `children` are lists of
strings. -/

/-- A value accepted by `(v or '').lower()`: a string, or falsy. -/
def roleOK (v : JValue) : Bool := v.isStr || !v.truthy

/-- Shape condition on a `messages` value. -/
def msgsShapeOK : JValue → Bool
  | .arr ms => ms.all fun m =>
      match m with
      | .obj mk => roleOK (jget mk "role")
      | _ => true
  | _ => true

/-- Shape condition on a `chunkedPrompt.chunks` value. -/
def chunksShapeOK : JValue → Bool
  | .arr chs => chs.all fun ch =>
      match ch with
      | .obj ck => roleOK (jget ck "role")
      | _ => true
  | _ => true

/-- Shape condition on the `chunkedPrompt` key of the document. -/
def cpShapeOK (kvs : List (String × JValue)) : Bool :=
  match jlookup kvs "chunkedPrompt" with
  | none => true
  | some (.obj ck) => chunksShapeOK (jget ck "chunks")
  | some _ => false

/-- Shape condition on a node's `children` value: falsy, or a list of
strings. -/
def childrenOK (v : JValue) : Bool :=
  !v.truthy ||
  (match v with
   | .arr xs => xs.all JValue.isStr
   | _ => false)

/-- Shape condition on one `mapping` node value. -/
def mapNodeOK (v : JValue) : Bool :=
  !v.truthy ||
  (match v with
   | .obj vk =>
     (let msg := jget vk "message"
      !msg.truthy ||
      (match msg with
       | .obj mk =>
         (let au := jget mk "author"
          !au.truthy ||
          (match au with
           | .obj ak => roleOK (jget ak "role")
           | _ => false))
       | _ => false)) &&
     childrenOK (jget vk "children")
   | _ => false)

/-- Shape condition on the `mapping` key of the document. -/
def mappingShapeOK (kvs : List (String × JValue)) : Bool :=
  match jget kvs "mapping" with
  | .obj m => m.all fun kv => mapNodeOK kv.2
  | _ => true

/-- The full well-shapedness condition. -/
def wfDoc : JValue → Bool
  | .obj kvs => msgsShapeOK (jget kvs "messages") && cpShapeOK kvs && mappingShapeOK kvs
  | _ => false

/-- Weight available for pushes at a given key. -/
def cwKey (m : List (String × JValue)) (s : String) : Nat :=
  match jlookup m s with
  | some v => cw v
  | none => 0

/-- The record invariant every appended message satisfies: a lower-cased
string role, a non-null content, a mapping meta. -/
def goodMsg (x : NMsg) : Prop :=
  (∃ s, x.role = JValue.str (strLower s)) ∧ x.content ≠ .null ∧ x.meta.isObj = true

/-! ## src/app/settings.py -/

/-- `get_default_settings` (src/app/settings.py, lines 32-81): every default
key with its literal default value, in source order. -/
def get_default_settings : List (String × JValue) :=
  [("source_dir", .str ""),
   ("dest_dir", .str ""),
   ("source_format", .str "auto"),
   ("theme", .str "default"),
   ("include_metadata", .bool true),
   ("include_timestamps", .bool false),
   ("overwrite_existing", .bool false),
   ("create_subfolders", .bool true),
   ("include_json_structure", .bool false),
   ("add_file_headers", .bool true),
   ("include_system_prompt", .bool true),
   ("include_run_settings", .bool true),
   ("exclude_thoughts", .bool true),
   ("dry_run", .bool false),
   ("rename_extensionless", .bool false),
   ("workers", .num 4),
   ("export_format", .str "md"),
   ("template_path", .str ""),
   ("html_template_path", .str ""),
   ("enable_yaml_front_matter", .bool false),
   ("watch_enabled", .bool false),
   ("export_pdf", .bool false),
   ("export_docx", .bool false),
   ("zip_output", .bool false),
   ("zip_name", .str ""),
   ("recent_projects", .arr [])]

/-- Whether `needle` starts the character list `hay` (component of Python's
substring test). -/
def startAux : List Char → List Char → Bool
  | [], _ => true
  | _ :: _, [] => false
  | a :: as, b :: bs => a == b && startAux as bs

/-- Whether `needle` occurs somewhere in `hay`. -/
def containsAux (needle : List Char) : List Char → Bool
  | [] => startAux needle []
  | c :: rest => startAux needle (c :: rest) || containsAux needle rest

/-- Python `needle in hay` for strings (substring test). -/
def strContains (hay needle : String) : Bool :=
  containsAux needle.data hay.data

/-- Python `key in xs` for a list: element equality against the string key. -/
def pyInList (xs : List JValue) (key : String) : Bool :=
  xs.any fun x =>
    match x with
    | .str s => s == key
    | _ => false

/-- Python `key in v` as used by the default-merge loop of `load_settings`:
key lookup for dicts, element equality for lists, substring test for
strings, and `TypeError` for any other type. -/
def pyContains (v : JValue) (key : String) : Except String Bool :=
  match v with
  | .obj kvs => .ok (hasKey kvs key)
  | .arr xs => .ok (pyInList xs key)
  | .str s => .ok (strContains s key)
  | _ => .error "TypeError"

/-- Python `v[key] = dv`: only dicts support item assignment; the merge loop
only assigns keys that are absent, and a new dict key is appended at the
end. -/
def pySetItem (v : JValue) (key : String) (dv : JValue) : Except String JValue :=
  match v with
  | .obj kvs => .ok (.obj (kvs ++ [(key, dv)]))
  | _ => .error "TypeError"

/-- One iteration of the default-merge loop of `load_settings`
(lines 101-103): `if key not in loaded_settings: loaded_settings[key] =
default_value`. -/
def mergeStep (cur : Except String JValue) (kv : String × JValue) :
    Except String JValue := do
  let v ← cur
  let c ← pyContains v kv.1
  if c then pure v else pySetItem v kv.1 kv.2

/-- The default-merge loop of `load_settings` (lines 100-105). -/
def mergeDefaults (loaded : JValue) : Except String JValue :=
  get_default_settings.foldl mergeStep (.ok loaded)

/-- The environment `load_settings` reads: the settings file is missing,
unreadable (an IOError/OSError on open or read), or present with a JSON
parse outcome. -/
inductive SettingsFile where
  | missing
  | ioError
  | present (parsed : Except Unit JValue)

/-- `load_settings` (lines 84-113): defaults on a missing file, a JSON
decode error or an IO/OS error (all caught); otherwise the parsed value is
default-merged, and any `TypeError` raised there propagates uncaught. -/
def load_settings : SettingsFile → Except String JValue
  | .missing => .ok (.obj get_default_settings)
  | .ioError => .ok (.obj get_default_settings)
  | .present (.error _) => .ok (.obj get_default_settings)
  | .present (.ok loaded) => mergeDefaults loaded

/-! ## src/app/app_logic.py: run-settings rendering -/

mutual
/-- Python `repr(v)` for parsed JSON values (scalars exact; containers
rendered in Python dict/list style; numbers are ints here). -/
def pyRepr : JValue → String
  | .null => "None"
  | .bool true => "True"
  | .bool false => "False"
  | .num n => toString n
  | .str s => "'" ++ s ++ "'"
  | .arr xs => "[" ++ pyReprList xs ++ "]"
  | .obj kvs => "\x7b" ++ pyReprObj kvs ++ "\x7d"

/-- Comma-joined reprs of list elements. -/
def pyReprList : List JValue → String
  | [] => ""
  | [x] => pyRepr x
  | x :: xs => pyRepr x ++ ", " ++ pyReprList xs

/-- Comma-joined reprs of dict entries. -/
def pyReprObj : List (String × JValue) → String
  | [] => ""
  | [(k, v)] => "'" ++ k ++ "': " ++ pyRepr v
  | (k, v) :: kvs => "'" ++ k ++ "': " ++ pyRepr v ++ ", " ++ pyReprObj kvs
end

/-- Python `str(v)` as used in f-strings. -/
def pyStr : JValue → String
  | .str s => s
  | v => pyRepr v

/-- Python `v is None` for a `dict.get` result (the stored `null` and an
absent key are both `None`). -/
def isNone : JValue → Bool
  | .null => true
  | _ => false

/-- One `safetySettings` entry counts as BLOCK_NONE when it is a mapping
whose `threshold` equals `'BLOCK_NONE'` (line 192). -/
def safetyBlockNone (s : JValue) : Bool :=
  match s with
  | .obj sk =>
    match jget sk "threshold" with
    | .str t => t == "BLOCK_NONE"
    | _ => false
  | _ => false

/-- The flags rendered by `format_run_settings` (lines 178-183), in order. -/
def runSettingsFlags : List String :=
  ["enableCodeExecution", "enableSearchAsATool", "enableBrowseAsATool",
   "enableAutoFunctionResponse"]

/-- The numeric-parameter lines of `format_run_settings` (lines 169-175). -/
def runSettingsNumericLines (kvs : List (String × JValue)) : List String :=
  (if isNone (jget kvs "temperature") then [] else
    ["- temperature: " ++ pyStr (jget kvs "temperature")]) ++
  (if isNone (jget kvs "topP") && isNone (jget kvs "topK") then [] else
    ["- topP/topK: " ++ pyStr ((jlookup kvs "topP").getD (.str "-")) ++ "/" ++
      pyStr ((jlookup kvs "topK").getD (.str "-"))]) ++
  (if isNone (jget kvs "maxOutputTokens") then [] else
    ["- maxOutputTokens: " ++ pyStr (jget kvs "maxOutputTokens")])

/-- The flag lines of `format_run_settings` (lines 178-186). -/
def runSettingsFlagLines (kvs : List (String × JValue)) : List String :=
  runSettingsFlags.filterMap fun flag =>
    if hasKey kvs flag then
      some ("- " ++ flag ++ ": " ++ (if (jget kvs flag).truthy then "✅" else "❌"))
    else none

/-- The safety-summary lines of `format_run_settings` (lines 188-196). -/
def runSettingsSafetyLines (kvs : List (String × JValue)) : List String :=
  match jget kvs "safetySettings" with
  | .arr l =>
    if l.isEmpty then [] else
      [if l.all safetyBlockNone then "- safety: BLOCK_NONE (все категории)"
       else "- safety: custom"]
  | _ => []

/-- `format_run_settings` (src/app/app_logic.py, lines 165-197, nested in
`extract_markdown_content`): empty for non-mapping input, else the numeric,
flag and safety lines appended in source order. -/
def format_run_settings (rs : JValue) : List String :=
  match rs with
  | .obj kvs =>
    runSettingsNumericLines kvs ++ runSettingsFlagLines kvs ++ runSettingsSafetyLines kvs
  | _ => []

/-! ## src/app/app_logic.py: batch glob filtering (lines 685-711)

`fnmatch.fnmatch` is modelled over character lists with the shell wildcard
semantics the library implements on posix (case-sensitive `*`, `?`, and
`[seq]` classes with `!` negation and ranges; an unterminated `[` is a
literal character). -/

/-- Split a character-class body at its closing `]`. -/
def findClose : List Char → Option (List Char × List Char)
  | [] => none
  | ']' :: rest => some ([], rest)
  | c :: rest => (findClose rest).map fun ab => (c :: ab.1, ab.2)

/-- Split a class body, treating a `]` in first position as a member. -/
def splitClass (l : List Char) : Option (List Char × List Char) :=
  match l with
  | ']' :: rest => (findClose rest).map fun ab => (']' :: ab.1, ab.2)
  | _ => findClose l

/-- Parse a character class after `[`: negation flag, members, remaining
pattern; `none` when the `]` is missing (the `[` is then literal). -/
def classSpec (ps : List Char) : Option (Bool × List Char × List Char) :=
  match ps with
  | '!' :: rest => (splitClass rest).map fun ab => (true, ab.1, ab.2)
  | _ => (splitClass ps).map fun ab => (false, ab.1, ab.2)

/-- Membership of a character in a class body (with `a-z` ranges). -/
def classMember : List Char → Char → Bool
  | a :: '-' :: b :: rest, c =>
    (a ≤ c && c ≤ b) || classMember rest c
  | a :: rest, c => (a == c) || classMember rest c
  | [], _ => false

/-- Shell wildcard matching of a name against a pattern. -/
def globMatch : (pat : List Char) → (name : List Char) → Bool
  | [], [] => true
  | [], _ :: _ => false
  | '*' :: ps, name =>
    globMatch ps name ||
      (match name with
       | [] => false
       | _ :: ns => globMatch ('*' :: ps) ns)
  | '?' :: _, [] => false
  | '?' :: ps, _ :: ns => globMatch ps ns
  | '[' :: ps, name =>
    (match classSpec ps with
     | some cr =>
       (match name with
        | [] => false
        | c :: ns => (cr.1 != classMember cr.2.1 c) && globMatch cr.2.2 ns)
     | none =>
       (match name with
        | [] => false
        | c :: ns => ('[' == c) && globMatch ps ns))
  | _ :: _, [] => false
  | p :: ps, c :: ns => (p == c) && globMatch ps ns
  termination_by pat name => (name.length, pat.length)

/-- `fnmatch.fnmatch(name, pat)` on posix. -/
def fnmatch (name pat : String) : Bool :=
  globMatch pat.data name.data

/-- Split a path on `/` separators. -/
def splitSlashAux : List Char → List Char → List String
  | acc, [] => [⟨acc.reverse⟩]
  | acc, '/' :: rest => (⟨acc.reverse⟩ : String) :: splitSlashAux [] rest
  | acc, c :: rest => splitSlashAux (c :: acc) rest

/-- Path components of a string path. -/
def pathComponents (p : String) : List String :=
  (splitSlashAux [] p.data).filter (· ≠ "")

/-- Length of the common leading run of two component lists. -/
def commonLen : List String → List String → Nat
  | a :: as, b :: bs => if a = b then 1 + commonLen as bs else 0
  | _, _ => 0

/-- `os.path.relpath(p, start)` for normalized paths (the batch scanner
produces paths under an absolute `source_dir`, so the lexical computation
matches the library). -/
def relpath (p start : String) : String :=
  let pl := pathComponents p
  let sl := pathComponents start
  let i := commonLen pl sl
  let rel := List.replicate (sl.length - i) ".." ++ pl.drop i
  if rel.isEmpty then "." else String.intercalate "/" rel

/-- The include/exclude filtering step of `convert_files`
(src/app/app_logic.py, lines 699-711): with no patterns the scan result is
kept as-is; otherwise each file's path relative to `source_dir` must match
some include pattern (when any are given) and no exclude pattern. -/
def applyGlobFilters (jsonFiles : List String) (sourceDir : String)
    (includeGlobs excludeGlobs : List String) : List String :=
  if includeGlobs ≠ [] ∨ excludeGlobs ≠ [] then
    jsonFiles.filter fun p =>
      let rel := relpath p sourceDir
      (if includeGlobs.isEmpty then true
       else includeGlobs.any fun pat => fnmatch rel pat) &&
      !(excludeGlobs.any fun pat => fnmatch rel pat)
  else jsonFiles

/-! ## src/scripts/convert_batch.py: exit-code policy

`_DummyQueue` (lines 27-46) records which progress-event types were seen;
`main` (lines 126-141) turns the flags, or a user interrupt, into the exit
code.  The batch run itself is abstracted by the list of event-type tags it
put on the queue, in order, and by whether a KeyboardInterrupt aborted it. -/

/-- The three `seen_*` flags of `_DummyQueue`. -/
structure DQFlags where
  seen_warning : Bool
  seen_error : Bool
  seen_success : Bool

/-- `_DummyQueue.put` (lines 33-46), restricted to its flag effect: an
`elif` chain on the event's `type`. -/
def dqPut (q : DQFlags) (t : String) : DQFlags :=
  if t = "warning" then { q with seen_warning := true }
  else if t = "error" then { q with seen_error := true }
  else if t = "success" then { q with seen_success := true }
  else q

/-- The exit-code computation of `main` (lines 126-141): on interrupt the
cancel flag is set and the code is 2; otherwise the flags accumulated from
the observed events decide 2 / 1 / 0 / 1.  Returns (exit code, cancel-flag
state). -/
def batchExit (events : List String) (interrupted : Bool) : Nat × Bool :=
  if interrupted then (2, true)
  else
    let q := events.foldl dqPut ⟨false, false, false⟩
    (if q.seen_error then 2
     else if q.seen_warning then 1
     else if q.seen_success then 0
     else 1, false)

/-! ## src/app/app_logic.py: single-file conversion (lines 453-594)

The filesystem is a map from paths to file text plus a set of directories;
`json.load` of the source file is abstracted by its parse outcome; the
third-party boundary libraries (jinja2 templating, markdown→HTML, yaml,
base64, mimetypes) and `datetime.now()` are abstracted by a `PyExt` record of
(total) functions, universally quantified in the theorems. -/

/-- Python `s.strip()`. -/
def pyStrip (s : String) : String :=
  ⟨((s.data.dropWhile Char.isWhitespace).reverse.dropWhile Char.isWhitespace).reverse⟩

/-- Python `s.replace(old-newline, ...)` specialised helper:
`sys_prompt.replace('\n', '\n> ')`. -/
def replaceNewlineQuote (s : String) : String :=
  ⟨s.data.flatMap fun c => if c = '\n' then ['\n', '>', ' '] else [c]⟩

/-- Python `s.title()` for ASCII: an alphabetic character is upper-cased
after a non-alphabetic one and lower-cased otherwise. -/
def pyTitleAux : Bool → List Char → List Char
  | _, [] => []
  | prev, c :: rest =>
    if c.isAlpha then
      (if prev then c.toLower else c.toUpper) :: pyTitleAux true rest
    else c :: pyTitleAux false rest

/-- Python `s.title()`. -/
def pyTitle (s : String) : String := ⟨pyTitleAux false s.data⟩

/-- Python `s.startswith(pre)`. -/
def strStarts (s pre : String) : Bool := startAux pre.data s.data

/-- `os.path.join(a, b)` for a non-absolute `b`. -/
def joinPath (a b : String) : String := if a = "" then b else a ++ "/" ++ b

/-- `os.path.basename(p)`: the part after the last `/`. -/
def basename (p : String) : String :=
  ⟨(p.data.reverse.takeWhile (· ≠ '/')).reverse⟩

/-- `os.path.dirname(p)`. -/
def dirname (p : String) : String :=
  let rev := p.data.reverse.dropWhile (· ≠ '/')
  if rev.isEmpty then ""
  else
    let stripped := rev.dropWhile (· = '/')
    if stripped.isEmpty then ⟨rev.reverse⟩ else ⟨stripped.reverse⟩

/-- `os.path.splitext(name)[0]` for a basename: drop from the last `.`,
except that leading dots never count as an extension separator. -/
def splitextBase (name : String) : String :=
  let d := name.data
  let lead := d.takeWhile (· = '.')
  let rest := d.drop lead.length
  if rest.contains '.' then
    ⟨lead ++ ((rest.reverse.dropWhile (· ≠ '.')).drop 1).reverse⟩
  else name

/-- The third-party boundary: generation timestamps, yaml serialization
(`none` models a raised exception, caught by the caller), jinja2 template
rendering, markdown→HTML conversion, base64 decoding (`none` models a
raised exception), `mimetypes.guess_extension` (empty string for unknown)
and `json.dumps`. -/
structure PyExt where
  nowStd : String
  nowIso : String
  yamlDump : JValue → Option String
  renderMdTemplate : String → JValue → String → String → String
  renderHtmlTemplate : String → JValue → String → String → String
  mdToHtml : String → String
  b64decode : String → Option String
  guessExt : String → String
  jsonDumps : JValue → String

/-- Update-or-append of one file binding. -/
def setFile : List (String × String) → String → String → List (String × String)
  | [], p, c => [(p, c)]
  | (q, d) :: rest, p, c =>
    if q = p then (p, c) :: rest else (q, d) :: setFile rest p c

/-- First binding of a path in the file map. -/
def lookupFileList : List (String × String) → String → Option String
  | [], _ => none
  | (q, c) :: rest, p => if q = p then some c else lookupFileList rest p

/-- The filesystem state: written text files and created directories. -/
structure FS where
  files : List (String × String)
  dirs : List String

/-- Content of the file at `p`, if any. -/
def FS.lookupFile (fs : FS) (p : String) : Option String :=
  lookupFileList fs.files p

/-- `os.path.exists(p)`: a file or a directory. -/
def FS.pathExists (fs : FS) (p : String) : Bool :=
  (fs.lookupFile p).isSome || fs.dirs.contains p

/-- `open(p, 'w').write(c)`. -/
def FS.write (fs : FS) (p c : String) : FS :=
  { fs with files := setFile fs.files p c }

/-- `os.makedirs(d, exist_ok=True)`. -/
def FS.mkdir (fs : FS) (d : String) : FS :=
  { fs with dirs := if fs.dirs.contains d then fs.dirs else d :: fs.dirs }

/-- The conversion settings consulted by `convert_single_file` and
`extract_markdown_content`, with each field holding the value the
corresponding `settings.get(...)` call resolves to. -/
structure CSettings where
  source_dir : String
  create_subfolders : Bool
  dry_run : Bool
  overwrite_existing : Bool
  export_format : String
  template_path : String
  html_template_path : String
  enable_yaml_front_matter : Bool
  include_metadata : Bool
  include_timestamps : Bool
  include_system_prompt : Bool
  include_run_settings : Bool
  exclude_thoughts : Bool
  add_file_headers : Bool
  include_json_structure : Bool
  sourceBasename : String

/-- Translation of `get_nested(obj, path)` (lines 122-129): walk dict keys;
a missing key, a non-dict step and a stored `null` all come out as `None`
(`.null`), exactly as the callers observe them. -/
def getNested : JValue → List String → JValue
  | v, [] => v
  | .obj kvs, part :: rest =>
    if hasKey kvs part then getNested (jget kvs part) rest else .null
  | _, _ :: _ => .null

/-- Translation of `first_of(paths, default)` (lines 131-136). -/
def firstOf (data : JValue) (paths : List (List String)) (default : JValue) : JValue :=
  match paths with
  | [] => default
  | p :: rest =>
    let val := getNested data p
    if isNone val then firstOf data rest default else val

/-- The first title candidate that is a nonblank string, stripped
(lines 150-152). -/
def firstStrTitle : List JValue → Option String
  | [] => none
  | .str t :: rest => if pyStrip t = "" then firstStrTitle rest else some (pyStrip t)
  | _ :: rest => firstStrTitle rest

/-- Translation of `coalesce_title()` (lines 138-157): the four `data.get`
candidates raise `AttributeError` when `data` is not a mapping. -/
def coalesce_title (data : JValue) (s : CSettings) : Except String String := do
  let c2 ← pyGetObj data "conversationTitle"
  let c7 ← pyGetObj data "title"
  let c8 ← pyGetObj data "documentTitle"
  let c9 ← pyGetObj data "name"
  let candidates := [getNested data ["conversation", "title"], c2,
    getNested data ["chat", "title"], getNested data ["thread", "title"],
    getNested data ["session", "title"], getNested data ["metadata", "title"],
    c7, c8, c9]
  match firstStrTitle candidates with
  | some t => pure t
  | none =>
    if pyStrip s.sourceBasename = "" then pure "AI Studio Конвертация"
    else pure (pyStrip s.sourceBasename)

/-- Translation of `normalize_model(run_settings)` (lines 159-163). -/
def normalize_model (rs : JValue) : String :=
  match rs with
  | .obj kvs =>
    pyStr (pyOr (pyOr (jget kvs "model") (jget kvs "modelName")) (.str ""))
  | _ => ""

/-- Translation of `role_label(role)` (lines 199-207): `.lower()` raises
`AttributeError` on truthy non-string roles. -/
def role_label (role : JValue) : Except String String := do
  let r ← pyLower (pyOr role (.str ""))
  if r = "assistant" ∨ r = "model" ∨ r = "ai" then pure "🤖 Ассистент"
  else if r = "user" ∨ r = "human" then pure "🧑‍💻 Пользователь"
  else if r = "system" then pure "🛠️ Система"
  else if role.truthy then
    match role with
    | .str t => pure (pyTitle t)
    | _ => .error "AttributeError"
  else pure "Сообщение"

/-- One segment of `_join_parts` (lines 212-228): a dict segment contributes
its text, image link and file link in that order (thoughts skipped when
configured); a string segment contributes itself. -/
def segChunks (s : CSettings) (seg : JValue) : List String :=
  match seg with
  | .obj sk =>
    if s.exclude_thoughts && (jget sk "thought").truthy then []
    else
      (match jget sk "text" with
       | .str t => if t = "" then [] else [t]
       | _ => []) ++
      (match pyOr (jget sk "imageUrl") (jget sk "image_url") with
       | .str u => if u = "" then [] else ["![image](" ++ u ++ ")"]
       | _ => []) ++
      (match pyOr (jget sk "fileUrl") (jget sk "file_url") with
       | .str u => if u = "" then [] else ["[attachment](" ++ u ++ ")"]
       | _ => [])
  | .str t => [t]
  | _ => []

/-- The concatenated chunks of all segments (lines 212-228). -/
def segsChunks (s : CSettings) : List JValue → List String
  | [] => []
  | sg :: rest => segChunks s sg ++ segsChunks s rest

/-- Translation of `_join_parts(parts_value)` (lines 209-232). -/
def joinParts (s : CSettings) (v : JValue) : String :=
  match v with
  | .arr segs => pyStrip (String.intercalate "\n" (segsChunks s segs))
  | .str t => t
  | _ => ""

/-- One collected message (lines 247-251 and 265-269): role and timestamp
as stored, content as the final string. -/
structure EMsg where
  role : JValue
  content : String
  timestamp : JValue

/-- The explicit `messages` loop of `collect_messages` (lines 239-251).
A kept truthy non-string content would make the final
`"\n".join(md_lines)` of line 338 raise `TypeError`; that raise is
modelled here, at the message that causes it. -/
def collectExplicit (s : CSettings) : List JValue → Except String (List EMsg)
  | [] => pure []
  | item :: rest =>
    match item with
    | .obj ik =>
      let text0 := pyOr (jget ik "content") (jget ik "text")
      let text1 := match text0 with
        | .arr ps => JValue.str (joinParts s (.arr ps))
        | t => t
      if text1.truthy then
        match text1 with
        | .str t => do
          let tail ← collectExplicit s rest
          pure (⟨jget ik "role", t, pyOr (jget ik "timestamp") (jget ik "time")⟩ :: tail)
        | _ => .error "TypeError"
      else collectExplicit s rest
    | _ => collectExplicit s rest

/-- The `chunkedPrompt.chunks` fallback loop of `collect_messages`
(lines 256-269), with the same treatment of non-string contents. -/
def collectChunks (s : CSettings) : List JValue → Except String (List EMsg)
  | [] => pure []
  | ch :: rest =>
    match ch with
    | .obj ck =>
      if s.exclude_thoughts && (jget ck "isThought").truthy then collectChunks s rest
      else
        let textVal := pyOr (jget ck "text") (.str (joinParts s (jget ck "parts")))
        if textVal.truthy then
          match textVal with
          | .str t => do
            let tail ← collectChunks s rest
            pure (⟨pyOr (jget ck "role") (.str "model"), t,
              pyOr (jget ck "timestamp") (jget ck "time")⟩ :: tail)
          | _ => .error "TypeError"
        else collectChunks s rest
    | _ => collectChunks s rest

/-- Translation of `collect_messages()` (lines 234-271):
`data.get('messages')` raises on a non-mapping `data`; the chunk fallback
only runs when no explicit message was kept. -/
def collect_messages (data : JValue) (s : CSettings) : Except String (List EMsg) := do
  let explicit ← pyGetObj data "messages"
  let msgs ← match explicit with
    | .arr items => collectExplicit s items
    | _ => pure []
  if msgs.isEmpty then
    match firstOf data [["chunkedPrompt", "chunks"]] (.arr []) with
    | .arr chs => collectChunks s chs
    | _ => pure []
  else pure msgs

/-- Everything `extract_markdown_content` computes that can raise, together
with what its rendering depends on: the optional header title, the resolved
run-settings value and the collected messages with their role labels. -/
structure ExtractCore where
  title : Option String
  rs : JValue
  msgs : List EMsg
  labels : List String

/-- Role labels of a message list (line 314, one `role_label` call per
rendered message). -/
def msgLabels : List EMsg → Except String (List String)
  | [] => pure []
  | m :: rest => do
    let l ← role_label m.role
    let tail ← msgLabels rest
    pure (l :: tail)

/-- The metadata section's `run_settings.get` calls (lines 288-292) raise
`AttributeError` when the resolved `run_settings` is a truthy non-mapping. -/
def metaGuard (includeMeta : Bool) (rs : JValue) : Except String Unit :=
  if includeMeta then
    match rs with
    | .obj _ => pure ()
    | _ => .error "AttributeError"
  else pure ()

/-- The raising part of `extract_markdown_content` (lines 276-314): title
coalescing when headers are on, the metadata section's lookups, message
collection and role labelling. -/
def extractChecks (data : JValue) (s : CSettings) : Except String ExtractCore := do
  let title ← if s.add_file_headers then
      (fun t => some t) <$> coalesce_title data s
    else pure none
  let rs := pyOr (firstOf data [["run_settings"], ["runSettings"]] (.obj [])) (.obj [])
  metaGuard s.include_metadata rs
  let msgs ← collect_messages data s
  let labels ← msgLabels msgs
  pure ⟨title, rs, msgs, labels⟩

/-- The metadata section lines (lines 283-294) for the resolved
run-settings mapping. -/
def metaLines (rs : JValue) : List String :=
  match rs with
  | .obj kvs =>
    ["## 📋 Метаданные"] ++
    (if normalize_model rs = "" then [] else ["- **Модель**: " ++ normalize_model rs]) ++
    (if isNone (jget kvs "temperature") then [] else
      ["- **Температура**: " ++ pyStr (jget kvs "temperature")]) ++
    (if isNone (jget kvs "topP") && isNone (jget kvs "topK") then [] else
      ["- **topP / topK**: " ++ pyStr ((jlookup kvs "topP").getD (.str "-")) ++ "/" ++
        pyStr ((jlookup kvs "topK").getD (.str "-"))]) ++
    (if isNone (jget kvs "maxOutputTokens") then [] else
      ["- **Макс. токенов**: " ++ pyStr (jget kvs "maxOutputTokens")]) ++
    [""]
  | _ => []

/-- The system-prompt section (lines 297-302). -/
def sysPromptLines (data : JValue) (s : CSettings) : List String :=
  if s.include_system_prompt then
    match firstOf data [["system_prompt"], ["systemInstruction", "text"]] .null with
    | .str t =>
      if pyStrip t = "" then []
      else ["## 🛠️ System Prompt", "> " ++ replaceNewlineQuote t, ""]
    | _ => []
  else []

/-- The detailed run-settings section (lines 305-308). -/
def runSettingsSection (rs : JValue) (s : CSettings) : List String :=
  if s.include_run_settings && rs.isObj && rs.truthy then
    ["## ⚙️ Run Settings"] ++ format_run_settings rs ++ [""]
  else []

/-- The per-message blocks (lines 313-322) with precomputed labels;
`idx` is the 1-based position of the message. -/
def msgBlocks (s : CSettings) (total : Nat) : List EMsg → List String → Nat → List String
  | [], _, _ => []
  | _ :: _, [], _ => []
  | m :: rest, label :: labels, idx =>
    (if m.timestamp.truthy && s.include_timestamps then
      ["## [" ++ pyStr m.timestamp ++ "] " ++ label]
     else ["## " ++ label]) ++
    [m.content] ++
    (if idx < total then ["\n---\n"] else []) ++
    msgBlocks s total rest labels (idx + 1)

/-- The total assembly of `extract_markdown_content` (lines 273-338) from
the checked core. -/
def renderExtract (ext : PyExt) (data : JValue) (s : CSettings) (core : ExtractCore) : String :=
  String.intercalate "\n"
    ((match core.title with
      | some t => ["# 🧠 " ++ t ++ "\n"]
      | none => []) ++
     (if s.include_metadata then metaLines core.rs else []) ++
     sysPromptLines data s ++
     runSettingsSection core.rs s ++
     (if core.msgs.isEmpty then []
      else msgBlocks s core.msgs.length core.msgs core.labels 1 ++ [""]) ++
     (if s.include_timestamps then
       ["## ⏰ Временные метки", "- **Время конвертации**: " ++ ext.nowStd, ""]
      else []) ++
     (if s.include_json_structure then
       ["## 🔍 JSON Структура", "```json", ext.jsonDumps data, "```"]
      else []))

/-- Translation of `extract_markdown_content(data, settings)`
(lines 115-338): the raising part, then the total rendering. -/
def extract_markdown_content (ext : PyExt) (data : JValue) (s : CSettings) :
    Except String String := do
  let core ← extractChecks data s
  pure (renderExtract ext data s core)

mutual
/-- Translation of `_find_inline_attachments._walk` (lines 364-382): each
dict node contributes its inline base64 payload and its image/file links in
source order before its values are walked. -/
def findAtts : JValue → List (Option String × Option String × Option String)
  | .obj kvs =>
    (match pyOr (jget kvs "inlineData") (jget kvs "inline_data") with
     | .obj ik =>
       (match jget ik "data", pyOr (jget ik "mimeType") (jget ik "mime_type") with
        | .str b64, .str m => [(some b64, some m, none)]
        | _, _ => [])
     | _ => []) ++
    (match pyOr (jget kvs "imageUrl") (jget kvs "image_url") with
     | .str u => [(none, none, some u)]
     | _ => []) ++
    (match pyOr (jget kvs "fileUrl") (jget kvs "file_url") with
     | .str u => [(none, none, some u)]
     | _ => []) ++
    findAttsObj kvs
  | .arr xs => findAttsArr xs
  | _ => []

/-- Walk of the values of a dict node (line 378). -/
def findAttsObj : List (String × JValue) → List (Option String × Option String × Option String)
  | [] => []
  | (_, v) :: rest => findAtts v ++ findAttsObj rest

/-- Walk of the items of a list node (lines 380-382). -/
def findAttsArr : List JValue → List (Option String × Option String × Option String)
  | [] => []
  | v :: rest => findAtts v ++ findAttsArr rest
end

/-- Translation of `_guess_extension_from_mime(mime_type)` (lines 341-354);
`mimetypes.guess_extension` returning `None` is folded into the empty
string. -/
def guessExtensionFromMime (ext : PyExt) (mime : String) : String :=
  let e := ext.guessExt mime
  if e = "" then
    let m := strLower mime
    if m = "image/png" then ".png"
    else if m = "image/jpeg" then ".jpg"
    else if m = "image/jpg" then ".jpg"
    else if m = "image/webp" then ".webp"
    else if m = "image/gif" then ".gif"
    else if m = "text/plain" then ".txt"
    else if m = "application/pdf" then ".pdf"
    else ""
  else e

/-- One step of the attachment loop (lines 517-533): the link to append (if
any), the file write to perform (if any, suppressed later by dry-run) and
the next counter value; a failed base64 decode is skipped and does not
advance the counter. -/
def attAction (ext : PyExt) (assetsDir baseName : String)
    (att : Option String × Option String × Option String) (counter : Nat) :
    Option String × Option (String × String) × Nat :=
  match att with
  | (b64?, mime?, url?) =>
    if (url?.getD "") ≠ "" then (some (url?.getD ""), none, counter)
    else
      match b64?, mime? with
      | some b, some m =>
        if b ≠ "" ∧ m ≠ "" then
          match ext.b64decode b with
          | some raw =>
            let e := guessExtensionFromMime ext m
            let fileName := "att_" ++ toString counter ++
              (if e = "" then "_" ++ toString counter else e)
            (some (joinPath (baseName ++ "_assets") fileName),
             some (joinPath assetsDir fileName, raw), counter + 1)
          | none => (none, none, counter)
        else (none, none, counter)
      | _, _ => (none, none, counter)

/-- The attachment-saving loop of `convert_single_file` (lines 516-533). -/
def saveAtts (ext : PyExt) (assetsDir baseName : String) (dryRun : Bool) :
    List (Option String × Option String × Option String) → Nat → List String → FS →
    List String × FS
  | [], _, links, fs => (links, fs)
  | att :: rest, counter, links, fs =>
    match attAction ext assetsDir baseName att counter with
    | (link?, write?, counter2) =>
      let fs2 := match write? with
        | some (p, c) => if dryRun then fs else fs.write p c
        | none => fs
      saveAtts ext assetsDir baseName dryRun rest counter2
        (match link? with | some l => links ++ [l] | none => links) fs2

/-- The paths the attachment loop writes in non-dry mode, in order. -/
def attWritePaths (ext : PyExt) (assetsDir baseName : String) :
    List (Option String × Option String × Option String) → Nat → List String
  | [], _ => []
  | att :: rest, counter =>
    match attAction ext assetsDir baseName att counter with
    | (_, write?, counter2) =>
      (match write? with | some (p, _) => [p] | none => []) ++
      attWritePaths ext assetsDir baseName rest counter2

/-- Translation of `_wrap_with_yaml_front_matter` (lines 397-405): a `none`
from the yaml serializer models the caught exception. -/
def wrapYamlFrontMatter (ext : PyExt) (mdText : String) (fm : JValue) (enable : Bool) : String :=
  if enable then
    match ext.yamlDump fm with
    | some y => "---\n" ++ pyStrip y ++ "\n---\n\n" ++ mdText
    | none => mdText
  else mdText

/-- The mapping built by `_build_front_matter` (lines 408-417), from the
already-fetched `data.get('title')` and the resolved model value. -/
def buildFrontMatter (ext : PyExt) (s : CSettings) (dataTitle model : JValue) : JValue :=
  .obj ([("title",
      if s.sourceBasename = "" then pyOr dataTitle (.str "AI Studio Конвертация")
      else .str s.sourceBasename),
    ("date", .str ext.nowStd)] ++
    (if model.truthy then [("model", model)] else []))

/-- Translation of `_render_markdown_with_template` (lines 388-394): jinja2
rendering is abstracted as a total function of the template text, the
parsed data, the `now` timestamp and the content (the remaining context
entries are functions of these); a directory at the template path is not
modelled. -/
def renderMarkdownWithTemplate (ext : PyExt) (s : CSettings) (fs : FS)
    (data : JValue) (mdText : String) : String :=
  if s.template_path ≠ "" then
    match fs.lookupFile s.template_path with
    | some tmpl => ext.renderMdTemplate tmpl data ext.nowIso mdText
    | none => mdText
  else mdText

/-- Index of the first occurrence of `sub` in the tail list, offset by the
running index (component of `str.index`). -/
def findSubAux (sub : List Char) : List Char → Nat → Option Nat
  | [], i => if sub.isEmpty then some i else none
  | c :: rest, i =>
    if startAux sub (c :: rest) then some i else findSubAux sub rest (i + 1)

/-- The YAML-prefix strip before HTML rendering (lines 573-580). -/
def stripYamlForHtml (md : String) : String :=
  if strStarts md "---\n" then
    match findSubAux ("\n---\n".data) (md.data.drop 4) 4 with
    | some idx => ⟨md.data.drop (idx + 5)⟩
    | none => md
  else md

/-- The fallback HTML document of `_render_html_from_markdown`
(lines 428-450). -/
def fallbackHtml (title body : String) : String :=
  "\n<!doctype html>\n<html lang=\"ru\">\n<head>\n<meta charset=\"utf-8\" />\n<meta name=\"viewport\" content=\"width=device-width, initial-scale=1\" />\n<title>" ++
  title ++
  "</title>\n<style>\nbody \x7b font-family: -apple-system, Segoe UI, Roboto, sans-serif; line-height: 1.6; max-width: 860px; margin: 24px auto; padding: 0 16px; \x7d\nh1,h2,h3,h4 \x7b line-height: 1.25; \x7d\ncode, pre \x7b background: #0b0f14; color: #e6e6e6; border-radius: 6px; \x7d\npre \x7b padding: 12px; overflow: auto; \x7d\ntable \x7b border-collapse: collapse; \x7d\nth, td \x7b border: 1px solid #ddd; padding: 6px 10px; \x7d\nblockquote \x7b border-left: 4px solid #ccc; margin: 0; padding: 0 12px; color: #555; \x7d\nhr \x7b border: none; border-top: 1px solid #e0e0e0; margin: 24px 0; \x7d\n</style>\n</head>\n<body>\n" ++
  body ++
  "\n</body>\n</html>\n"

/-- Translation of `_render_html_from_markdown` (lines 420-450), with the
jinja2 HTML template abstracted like the Markdown one. -/
def renderHtmlFromMarkdown (ext : PyExt) (s : CSettings) (fs : FS)
    (data : JValue) (title : String) (mdWithoutYaml : String) : String :=
  let body := ext.mdToHtml mdWithoutYaml
  if s.html_template_path ≠ "" then
    match fs.lookupFile s.html_template_path with
    | some tmpl => ext.renderHtmlTemplate tmpl data body mdWithoutYaml
    | none => fallbackHtml title body
  else fallbackHtml title body

/-- The destination directory after the subfolder logic (lines 499-508). -/
def convFinalDest (jsonFilePath destDir : String) (s : CSettings) : String :=
  if s.create_subfolders && (s.source_dir != "") then
    (let rel := relpath (dirname jsonFilePath) s.source_dir
     if rel == "." then destDir else joinPath destDir rel)
  else destDir

/-- Whether the subfolder branch runs `os.makedirs(final_dest_dir)`
(lines 506-508). -/
def convMakesSubdir (jsonFilePath : String) (s : CSettings) : Bool :=
  s.create_subfolders && (s.source_dir != "") &&
    (relpath (dirname jsonFilePath) s.source_dir != ".")

/-- The markdown output path (lines 497, 549). -/
def convMdPath (jsonFilePath destDir : String) (s : CSettings) : String :=
  joinPath (convFinalDest jsonFilePath destDir s)
    (splitextBase (basename jsonFilePath) ++ ".md")

/-- The HTML output path (lines 498, 550). -/
def convHtmlPath (jsonFilePath destDir : String) (s : CSettings) : String :=
  joinPath (convFinalDest jsonFilePath destDir s)
    (splitextBase (basename jsonFilePath) ++ ".html")

/-- The per-file assets directory (line 511). -/
def convAssetsDir (jsonFilePath destDir : String) (s : CSettings) : String :=
  joinPath (convFinalDest jsonFilePath destDir s)
    (splitextBase (basename jsonFilePath) ++ "_assets")

/-- Resolution of `(settings.get('export_format') or 'md').lower()`
(line 544). -/
def exportFormat (s : CSettings) : String :=
  strLower (if s.export_format = "" then "md" else s.export_format)

/-- The raising part of `convert_single_file` (lines 477-481): content
extraction, the `run_settings` lookups and the front-matter lookups (the
`.get('model')`/`.get('modelName')` of `_build_front_matter`, which raise
when the resolved `run_settings` is a truthy non-mapping). -/
def convertPrep (data : JValue) (s : CSettings) :
    Except String (ExtractCore × JValue × JValue) := do
  let core ← extractChecks data s
  let rs1 ← pyGetObj data "run_settings"
  let rs2 ← pyGetObj data "runSettings"
  let rs := pyOr rs1 (pyOr rs2 (.obj []))
  let dataTitle ← pyGetObj data "title"
  let m1 ← pyGetObj (pyOr rs (.obj [])) "model"
  let m2 ← pyGetObj (pyOr rs (.obj [])) "modelName"
  pure (core, dataTitle, pyOr m1 m2)

/-- The subfolder-creation and attachment stage of `convert_single_file`
(lines 499-533): the collected links and the filesystem after the makedirs
calls and the (dry-run-guarded) attachment writes. -/
def convAttsRun (ext : PyExt) (data : JValue) (jsonFilePath destDir : String)
    (s : CSettings) (fs : FS) : List String × FS :=
  let fs1 := if convMakesSubdir jsonFilePath s then
      fs.mkdir (convFinalDest jsonFilePath destDir s)
    else fs
  let atts := findAtts data
  if atts.isEmpty then ([], fs1)
  else
    saveAtts ext (convAssetsDir jsonFilePath destDir s) (splitextBase (basename jsonFilePath))
      s.dry_run atts 1 [] (fs1.mkdir (convAssetsDir jsonFilePath destDir s))

/-- The effectful tail of `convert_single_file` (lines 482-587), entered
once the raising part has succeeded. -/
def convertTail (ext : PyExt) (data : JValue) (jsonFilePath destDir : String)
    (s : CSettings) (core : ExtractCore) (dataTitle model : JValue)
    (fs : FS) : Bool × FS :=
  let mdCore := renderExtract ext data s core
  let fm := buildFrontMatter ext s dataTitle model
  let mdFm := wrapYamlFrontMatter ext mdCore fm s.enable_yaml_front_matter
  let titleStr := pyStr (match fm with | .obj kvs => jget kvs "title" | _ => .null)
  let mdTempl := renderMarkdownWithTemplate ext s fs data mdFm
  let linksFs := convAttsRun ext data jsonFilePath destDir s fs
  let links := linksFs.1
  let fs2 := linksFs.2
  let mdFinal :=
    if links.isEmpty then mdTempl
    else mdTempl ++ "\n\n## 📎 Вложения\n" ++
      String.join (links.map fun link =>
        if strStarts link "http" then "- [attachment](" ++ link ++ ")\n"
        else "- ![attachment](" ++ link ++ ")\n")
  let ef := exportFormat s
  let writeMd := ef == "md" || ef == "both"
  let writeHtml := ef == "html" || ef == "both"
  let mdPath := convMdPath jsonFilePath destDir s
  let htmlPath := convHtmlPath jsonFilePath destDir s
  if s.dry_run then (true, fs2)
  else
    let writeMd2 := writeMd && !(fs2.pathExists mdPath && !s.overwrite_existing)
    let writeHtml2 := writeHtml && !(fs2.pathExists htmlPath && !s.overwrite_existing)
    let fs3 := if writeMd2 then fs2.write mdPath mdFinal else fs2
    let fs4 :=
      if writeHtml2 then
        fs3.write htmlPath
          (renderHtmlFromMarkdown ext s fs3 data titleStr (stripYamlForHtml mdFinal))
      else fs3
    (true, fs4)

/-- Translation of `convert_single_file(json_file_path, dest_dir, settings)`
(lines 453-594): `parsed` is the outcome of `json.load` on the source file;
any raise in the prefix is caught and yields `False` with the filesystem
untouched. -/
def convert_single_file (ext : PyExt) (parsed : Except Unit JValue)
    (jsonFilePath destDir : String) (settings : CSettings) (fs : FS) :
    Bool × FS :=
  match parsed with
  | .error _ => (false, fs)
  | .ok data =>
    let s := { settings with sourceBasename := splitextBase (basename jsonFilePath) }
    match convertPrep data s with
    | .error _ => (false, fs)
    | .ok (core, dataTitle, model) =>
      convertTail ext data jsonFilePath destDir s core dataTitle model fs

/-- A concrete instance of the third-party boundary, for witnesses: fixed
timestamps, failing yaml serializer, identity renderers, identity base64
decode and an unknown-extension mime guesser. -/
def extSample : PyExt :=
  { nowStd := "2024-01-02 03:04:05", nowIso := "2024-01-02T03:04:05",
    yamlDump := fun _ => none, renderMdTemplate := fun _ _ _ c => c,
    renderHtmlTemplate := fun _ _ b _ => b, mdToHtml := fun x => x,
    b64decode := fun b => some b, guessExt := fun _ => "",
    jsonDumps := fun _ => "" }

/-- Concrete conversion settings for witnesses: markdown export, no
dry-run, no overwrite, everything optional switched off. -/
def convSettingsSample : CSettings :=
  { source_dir := "", create_subfolders := false, dry_run := false,
    overwrite_existing := false, export_format := "md", template_path := "",
    html_template_path := "", enable_yaml_front_matter := false,
    include_metadata := false, include_timestamps := false,
    include_system_prompt := false, include_run_settings := false,
    exclude_thoughts := true, add_file_headers := false,
    include_json_structure := false, sourceBasename := "" }

/-- A concrete parsed document with one message and one inline base64
attachment. -/
def convDocSample : JValue :=
  .obj [("messages", .arr [.obj [("role", .str "user"),
    ("content", .str "hi"),
    ("inlineData", .obj [("data", .str "QUJD"), ("mimeType", .str "image/png")])]])]

/-- The filesystem produced by a first conversion of the sample document
into an empty filesystem. -/
def convFs1Sample : FS :=
  (convert_single_file extSample (.ok convDocSample) "conv.json" "out"
    convSettingsSample (FS.mk [] [])).2

/-- The markdown text the first sample conversion wrote. -/
def convMdContentSample : String :=
  (convFs1Sample.lookupFile (convMdPath "conv.json" "out" convSettingsSample)).getD ""

/-! ## Helper lemmas -/

theorem except_bind_ok {ε α β : Type} (x : α) (f : α → Except ε β) :
    (Except.ok x >>= f) = f x := rfl

theorem except_bind_err {ε α β : Type} (e : ε) (f : α → Except ε β) :
    ((Except.error e : Except ε α) >>= f) = .error e := rfl

theorem except_pure {ε α : Type} (x : α) : (pure x : Except ε α) = Except.ok x := rfl

theorem truthy_null_false : JValue.truthy .null = false := rfl

theorem pyOr_ne_null (v d : JValue) (hd : d ≠ .null) : pyOr v d ≠ .null := by
  unfold pyOr
  split
  · rename_i h
    intro hv
    subst hv
    simp [JValue.truthy] at h
  · exact hd

theorem pyOr_str_ne_null (v : JValue) (s : String) : pyOr v (.str s) ≠ .null :=
  pyOr_ne_null v _ (by intro h; cases h)

theorem pyLower_ok_shape {v : JValue} {r : String} (h : pyLower v = .ok r) :
    ∃ s, r = strLower s := by
  unfold pyLower at h
  split at h
  · rename_i s
    exact ⟨s, by cases h; rfl⟩
  · cases h

theorem pyLower_or_ok (v : JValue) (d : String) (h : roleOK v = true) :
    ∃ s, pyLower (pyOr v (.str d)) = .ok s := by
  unfold roleOK at h
  unfold pyOr
  split
  · rename_i ht
    cases v with
    | str s => exact ⟨strLower s, rfl⟩
    | null => simp [JValue.truthy] at ht
    | bool b => simp [JValue.isStr, JValue.truthy] at h ht; simp [ht] at h
    | num n => simp [JValue.isStr, JValue.truthy] at h ht; simp [ht] at h
    | arr xs => simp [JValue.isStr, JValue.truthy] at h ht; simp [ht] at h
    | obj kvs => simp [JValue.isStr, JValue.truthy] at h ht; simp [ht] at h
  · exact ⟨strLower d, rfl⟩

theorem jlookup_mem {m : List (String × JValue)} {s : String} {v : JValue}
    (h : jlookup m s = some v) : (s, v) ∈ m := by
  induction m with
  | nil => simp [jlookup] at h
  | cons kv rest ih =>
    obtain ⟨k, u⟩ := kv
    unfold jlookup at h
    split at h
    · rename_i hk
      cases h
      subst hk
      exact List.mem_cons_self _ _
    · exact List.mem_cons_of_mem _ (ih h)

theorem visMem_cons (k x : JValue) (vis : List JValue) :
    visMem k (x :: vis) = (keyEq k x || visMem k vis) := by
  simp [visMem, List.any_cons]

theorem wUnvisited_mono (m : List (String × JValue)) (x : JValue) (vis : List JValue) :
    wUnvisited m (x :: vis) ≤ wUnvisited m vis := by
  induction m with
  | nil => exact Nat.le_refl 0
  | cons kv rest ih =>
    obtain ⟨k, v⟩ := kv
    unfold wUnvisited
    rw [visMem_cons]
    by_cases hv : visMem (JValue.str k) vis
    · simp [hv]
      exact ih
    · simp [hv]
      by_cases he : keyEq (JValue.str k) x
      · simp [he]
        omega
      · simp [he]
        omega

theorem wUnvisited_pop (m : List (String × JValue)) (s : String) (vis : List JValue)
    (v : JValue) (hvm : visMem (.str s) vis = false) (hl : jlookup m s = some v) :
    1 + cw v + wUnvisited m (.str s :: vis) ≤ wUnvisited m vis := by
  induction m with
  | nil => simp [jlookup] at hl
  | cons kv rest ih =>
    obtain ⟨k, u⟩ := kv
    unfold wUnvisited
    rw [visMem_cons]
    unfold jlookup at hl
    split at hl
    · rename_i hk
      cases hl
      subst hk
      have hke : keyEq (JValue.str k) (JValue.str k) = true := by
        simp [keyEq]
      simp [hke, hvm]
      have := wUnvisited_mono rest (JValue.str k) vis
      omega
    · rename_i hk
      have hke : keyEq (JValue.str k) (JValue.str s) = false := by
        simp [keyEq]
        intro h
        exact hk h
      simp [hke]
      have := ih hl
      omega

theorem truthy_jget_lookup {m : List (String × JValue)} {s : String}
    (h : (jget m s).truthy = true) :
    ∃ v, jlookup m s = some v ∧ v.truthy = true := by
  unfold jget at h
  cases hl : jlookup m s with
  | none => rw [hl] at h; simp [Option.getD, JValue.truthy] at h
  | some v => rw [hl] at h; exact ⟨v, rfl, h⟩

theorem cgStep_falsy (title : JValue) (mapping : List (String × JValue)) (s : String)
    (msgs : List NMsg) (h : (jget mapping s).truthy = false) :
    cgStep title mapping (.str s) msgs = .ok ([], msgs) := by
  unfold cgStep
  simp only [pyOr, h, if_false, Bool.false_eq_true]
  rfl

theorem cgStep_ok (title : JValue) (mapping : List (String × JValue)) (s : String)
    (msgs : List NMsg)
    (hWF : (mapping.all fun kv => mapNodeOK kv.2) = true) :
    ∃ pushes msgs', cgStep title mapping (.str s) msgs = .ok (pushes, msgs') ∧
      (∀ k ∈ pushes, ∃ t, k = JValue.str t) ∧
      pushes.length ≤ cwKey mapping s := by
  by_cases hT : (jget mapping s).truthy
  · obtain ⟨v, hl, hv⟩ := truthy_jget_lookup hT
    have hjv : jget mapping s = v := by simp [jget, hl]
    have hmem := jlookup_mem hl
    have hnode : mapNodeOK v = true := by
      simpa using List.all_eq_true.mp hWF ⟨s, v⟩ hmem
    unfold mapNodeOK at hnode
    rw [hv] at hnode
    simp only [Bool.not_true, Bool.false_or] at hnode
    cases v with
    | null => simp at hnode
    | bool b => simp at hnode
    | num n => simp at hnode
    | str t => simp at hnode
    | arr xs => simp at hnode
    | obj vk =>
      rw [Bool.and_eq_true] at hnode
      obtain ⟨hmsg, hch⟩ := hnode
      -- the node is truthy, so `pyOr node0 {}` is the node itself
      have hnodeOr : pyOr (jget mapping s) (.obj []) = .obj vk := by
        rw [hjv]; simp [pyOr, hv]
      -- children shape
      have hchildren : ∃ xs, childPush (pyOr (jget vk "children") (.arr [])) = .ok xs ∧
          (∀ k ∈ xs, ∃ t, k = JValue.str t) ∧ xs.length ≤ childLen (jget vk "children") := by
        unfold childrenOK at hch
        by_cases hcht : (jget vk "children").truthy
        · rw [hcht] at hch
          simp only [Bool.not_true, Bool.false_or] at hch
          cases hc : jget vk "children" with
          | arr ys =>
            rw [hc] at hch hcht
            refine ⟨ys, ?_, ?_, ?_⟩
            · simp [pyOr, hcht, childPush]
            · intro k hk
              have := List.all_eq_true.mp hch k hk
              cases k <;> simp [JValue.isStr] at this ⊢
            · simp [childLen]
          | null => rw [hc] at hch; simp at hch
          | bool b => rw [hc] at hch; simp at hch
          | num n => rw [hc] at hch; simp at hch
          | str t => rw [hc] at hch; simp at hch
          | obj o => rw [hc] at hch; simp at hch
        · refine ⟨[], ?_, by simp, by simp⟩
          simp only [Bool.not_eq_true] at hcht
          simp [pyOr, hcht, childPush]
      obtain ⟨xs, hcp, hxs, hlen⟩ := hchildren
      have hcw : cwKey mapping s = childLen (jget vk "children") := by
        simp [cwKey, hl, cw]
      -- now evaluate the chain, splitting on the message/author shape
      by_cases hmm : (jget vk "message").truthy
      · rw [hmm] at hmsg
        simp only [Bool.not_true, Bool.false_or] at hmsg
        cases hm : jget vk "message" with
        | obj mk =>
          rw [hm] at hmsg hmm
          have hmsg2 : (!(jget mk "author").truthy ||
              match jget mk "author" with
              | JValue.obj ak => roleOK (jget ak "role")
              | _ => false) = true := hmsg
          have hmsgOr : pyOr (JValue.obj mk) (.obj []) = .obj mk := by
            simp [pyOr, hmm]
          by_cases hau : (jget mk "author").truthy
          · rw [hau] at hmsg2
            simp only [Bool.not_true, Bool.false_or] at hmsg2
            cases ha : jget mk "author" with
            | obj ak =>
              rw [ha] at hmsg2 hau
              have hrole : roleOK (jget ak "role") = true := hmsg2
              obtain ⟨r, hr⟩ := pyLower_or_ok (jget ak "role") "" hrole
              have hauOr : pyOr (JValue.obj ak) (.obj []) = .obj ak := by
                simp [pyOr, hau]
              have hstep : ∃ M, cgStep title mapping (JValue.str s) msgs = .ok (xs, M) := by
                unfold cgStep
                simp only [pyGetObj, except_bind_ok, hnodeOr, hm, hmsgOr, ha, hauOr, hr, hcp]
                exact ⟨_, rfl⟩
              obtain ⟨M, hM⟩ := hstep
              exact ⟨xs, M, hM, hxs, by rw [hcw]; exact hlen⟩
            | null => rw [ha] at hmsg2; simp at hmsg2
            | bool b => rw [ha] at hmsg2; simp at hmsg2
            | num n => rw [ha] at hmsg2; simp at hmsg2
            | str t => rw [ha] at hmsg2; simp at hmsg2
            | arr ys => rw [ha] at hmsg2; simp at hmsg2
          · simp only [Bool.not_eq_true] at hau
            have hauOr2 : pyOr (jget mk "author") (.obj []) = .obj [] := by
              simp [pyOr, hau]
            have hstep : ∃ M, cgStep title mapping (JValue.str s) msgs = .ok (xs, M) := by
              unfold cgStep
              simp only [pyGetObj, except_bind_ok, hnodeOr, hm, hmsgOr, hauOr2, hcp]
              exact ⟨_, rfl⟩
            obtain ⟨M, hM⟩ := hstep
            exact ⟨xs, M, hM, hxs, by rw [hcw]; exact hlen⟩
        | null => rw [hm] at hmsg; simp at hmsg
        | bool b => rw [hm] at hmsg; simp at hmsg
        | num n => rw [hm] at hmsg; simp at hmsg
        | str t => rw [hm] at hmsg; simp at hmsg
        | arr ys => rw [hm] at hmsg; simp at hmsg
      · simp only [Bool.not_eq_true] at hmm
        have hmsgOr2 : pyOr (jget vk "message") (.obj []) = .obj [] := by
          simp [pyOr, hmm]
        have hstep : ∃ M, cgStep title mapping (JValue.str s) msgs = .ok (xs, M) := by
          unfold cgStep
          simp only [pyGetObj, except_bind_ok, hnodeOr, hmsgOr2, hcp]
          exact ⟨_, rfl⟩
        obtain ⟨M, hM⟩ := hstep
        exact ⟨xs, M, hM, hxs, by rw [hcw]; exact hlen⟩
  · simp only [Bool.not_eq_true] at hT
    refine ⟨[], msgs, cgStep_falsy _ _ _ _ hT, by simp, by simp⟩

theorem bind_ok_inv {ε α β : Type} {x : Except ε α} {f : α → Except ε β} {b : β}
    (h : (x >>= f) = .ok b) : ∃ a, x = .ok a ∧ f a = .ok b := by
  cases x with
  | error e => rw [except_bind_err] at h; cases h
  | ok a => exact ⟨a, rfl, h⟩

theorem cgStep_msgs {title : JValue} {mapping : List (String × JValue)} {key : JValue}
    {msgs : List NMsg} {out : List JValue × List NMsg}
    (h : cgStep title mapping key msgs = .ok out) :
    ∀ x ∈ out.2, x ∈ msgs ∨ goodMsg x := by
  unfold cgStep at h
  obtain ⟨msgv, hmv, h⟩ := bind_ok_inv h
  obtain ⟨auv, hav, h⟩ := bind_ok_inv h
  obtain ⟨rolev, hrv, h⟩ := bind_ok_inv h
  obtain ⟨author, hau, h⟩ := bind_ok_inv h
  obtain ⟨cv, hcv, h⟩ := bind_ok_inv h
  obtain ⟨chv, hch, h⟩ := bind_ok_inv h
  obtain ⟨pushes, hp, h⟩ := bind_ok_inv h
  obtain ⟨r0, hr0⟩ := pyLower_ok_shape hau
  obtain rfl := Except.ok.inj h
  intro x hx
  simp only at hx
  split at hx
  · rcases List.mem_append.mp hx with hl | hr
    · exact Or.inl hl
    · refine Or.inr ?_
      rcases List.mem_singleton.mp hr with rfl
      refine ⟨⟨r0, ?_⟩, ?_, ?_⟩
      · rw [hr0]
      · intro hc
        cases hc
      · rfl
  · exact Or.inl hx

theorem cgWalk_msgs (fuel : Nat) :
    ∀ {title : JValue} {mapping : List (String × JValue)}
      {stack visited : List JValue} {msgs out : List NMsg},
    cgWalk title mapping fuel stack visited msgs = .ok out →
    (∀ x ∈ msgs, goodMsg x) → ∀ x ∈ out, goodMsg x := by
  induction fuel with
  | zero =>
    intro title mapping stack visited msgs out h _hm
    simp [cgWalk] at h
  | succ f ih =>
    intro title mapping stack visited msgs out h hm
    match stack with
    | [] =>
      unfold cgWalk at h
      cases h
      exact hm
    | key :: rest =>
      unfold cgWalk at h
      split at h
      · cases h
      · cases h
      · split at h
        · exact ih h hm
        · split at h
          · cases h
          · rename_i pushes msgs' heq
            refine ih h fun x hx => ?_
            rcases cgStep_msgs heq x hx with hin | hgood
            · exact hm x hin
            · exact hgood

theorem cgWalk_ok (fuel : Nat) :
    ∀ {title : JValue} {mapping : List (String × JValue)}
      {stack visited : List JValue} (msgs : List NMsg),
    (mapping.all fun kv => mapNodeOK kv.2) = true →
    (∀ k ∈ stack, ∃ s, k = JValue.str s) →
    stack.length + wUnvisited mapping visited < fuel →
    ∃ out, cgWalk title mapping fuel stack visited msgs = .ok out := by
  induction fuel with
  | zero =>
    intro title mapping stack visited msgs _hWF _hs hmeas
    omega
  | succ f ih =>
    intro title mapping stack visited msgs hWF hs hmeas
    match stack with
    | [] => exact ⟨msgs, rfl⟩
    | key :: rest =>
      obtain ⟨s, rfl⟩ := hs key (List.mem_cons_self _ _)
      have hrest : ∀ k ∈ rest, ∃ t, k = JValue.str t :=
        fun k hk => hs k (List.mem_cons_of_mem _ hk)
      simp only [List.length_cons] at hmeas
      by_cases hv : visMem (.str s) visited
      · have heq : cgWalk title mapping (f + 1) (.str s :: rest) visited msgs
            = cgWalk title mapping f rest visited msgs := by
          conv_lhs => unfold cgWalk
          simp [hv]
        rw [heq]
        exact ih msgs hWF hrest (by omega)
      · obtain ⟨pushes, msgs', hstep, hpstr, hplen⟩ := cgStep_ok title mapping s msgs hWF
        have heq : cgWalk title mapping (f + 1) (.str s :: rest) visited msgs
            = cgWalk title mapping f (pushes.reverse ++ rest) (.str s :: visited) msgs' := by
          conv_lhs => unfold cgWalk
          simp [hv, hstep]
        rw [heq]
        refine ih msgs' hWF ?_ ?_
        · intro k hk
          rcases List.mem_append.mp hk with h1 | h2
          · exact hpstr k (List.mem_reverse.mp h1)
          · exact hrest k h2
        · simp only [List.length_append, List.length_reverse]
          cases hjl : jlookup mapping s with
          | none =>
            rw [show cwKey mapping s = 0 from by simp [cwKey, hjl]] at hplen
            have hmono := wUnvisited_mono mapping (.str s) visited
            omega
          | some v =>
            have hpop := wUnvisited_pop mapping s visited v
              (by simpa using hv) hjl
            rw [show cwKey mapping s = cw v from by simp [cwKey, hjl]] at hplen
            omega

theorem cgRoots_str (m : List (String × JValue)) :
    ∀ k ∈ cgRoots m, ∃ s, k = JValue.str s := by
  intro k hk
  unfold cgRoots at hk
  obtain ⟨kv, _, rfl⟩ := List.mem_map.mp hk
  exact ⟨kv.1, rfl⟩

theorem normChatgpt_ok (data : JValue) (h : wfDoc data = true) :
    ∃ out, _normalize_chatgpt data = .ok out := by
  cases data with
  | obj kvs =>
    unfold wfDoc at h
    rw [Bool.and_eq_true, Bool.and_eq_true] at h
    obtain ⟨⟨_, _⟩, hmap⟩ := h
    cases hm : jget kvs "mapping" with
    | obj m =>
      have hWF : (m.all fun kv => mapNodeOK kv.2) = true := by
        unfold mappingShapeOK at hmap
        rw [hm] at hmap
        exact hmap
      obtain ⟨out, hout⟩ := @cgWalk_ok
        (((cgRoots m).reverse).length + wUnvisited m [] + 1)
        (jget kvs "title") m ((cgRoots m).reverse) [] [] hWF
        (fun k hk => cgRoots_str m k (List.mem_reverse.mp hk))
        (by omega)
      refine ⟨out, ?_⟩
      unfold _normalize_chatgpt
      rw [show pyGetObj (JValue.obj kvs) "mapping" = .ok (jget kvs "mapping") from rfl]
      rw [except_bind_ok, hm]
      exact hout
    | null => exact ⟨[], by unfold _normalize_chatgpt; rw [show pyGetObj (JValue.obj kvs) "mapping" = .ok (jget kvs "mapping") from rfl, except_bind_ok, hm]; rfl⟩
    | bool b => exact ⟨[], by unfold _normalize_chatgpt; rw [show pyGetObj (JValue.obj kvs) "mapping" = .ok (jget kvs "mapping") from rfl, except_bind_ok, hm]; rfl⟩
    | num n => exact ⟨[], by unfold _normalize_chatgpt; rw [show pyGetObj (JValue.obj kvs) "mapping" = .ok (jget kvs "mapping") from rfl, except_bind_ok, hm]; rfl⟩
    | str t => exact ⟨[], by unfold _normalize_chatgpt; rw [show pyGetObj (JValue.obj kvs) "mapping" = .ok (jget kvs "mapping") from rfl, except_bind_ok, hm]; rfl⟩
    | arr xs => exact ⟨[], by unfold _normalize_chatgpt; rw [show pyGetObj (JValue.obj kvs) "mapping" = .ok (jget kvs "mapping") from rfl, except_bind_ok, hm]; rfl⟩
  | null => simp [wfDoc] at h
  | bool b => simp [wfDoc] at h
  | num n => simp [wfDoc] at h
  | str s => simp [wfDoc] at h
  | arr xs => simp [wfDoc] at h

theorem normChatgpt_msgs {data : JValue} {out : List NMsg}
    (h : _normalize_chatgpt data = .ok out) : ∀ x ∈ out, goodMsg x := by
  unfold _normalize_chatgpt at h
  obtain ⟨mv, hmv, h⟩ := bind_ok_inv h
  split at h
  · exact cgWalk_msgs _ h (by intro x hx; cases hx)
  · obtain rfl := Except.ok.inj h
    intro x hx
    cases hx

/-! Per-loop lemmas for the aistudio / claude / generic message loops. -/

theorem aiMsgLoop_ok (items : List JValue)
    (h : (items.all fun m =>
      match m with
      | .obj mk => roleOK (jget mk "role")
      | _ => true) = true) :
    ∃ out, aiMsgLoop items = .ok out := by
  induction items with
  | nil => exact ⟨[], rfl⟩
  | cons m rest ih =>
    rw [List.all_cons, Bool.and_eq_true] at h
    obtain ⟨hm, hrest⟩ := h
    obtain ⟨out, hout⟩ := ih hrest
    cases m with
    | obj mk =>
      obtain ⟨r, hr⟩ := pyLower_or_ok (jget mk "role") "" hm
      have hstep : ∃ o, aiMsgLoop (JValue.obj mk :: rest) = .ok o := by
        simp only [aiMsgLoop, hr, hout, except_bind_ok]
        exact ⟨_, rfl⟩
      exact hstep
    | null => exact ⟨out, hout⟩
    | bool b => exact ⟨out, hout⟩
    | num n => exact ⟨out, hout⟩
    | str s => exact ⟨out, hout⟩
    | arr xs => exact ⟨out, hout⟩

theorem aiMsgLoop_msgs : ∀ {items : List JValue} {out : List NMsg},
    aiMsgLoop items = .ok out → ∀ x ∈ out, goodMsg x := by
  intro items
  induction items with
  | nil =>
    intro out h x hx
    cases h
    cases hx
  | cons m rest ih =>
    intro out h x hx
    cases m with
    | obj mk =>
      unfold aiMsgLoop at h
      obtain ⟨role, hrole, h⟩ := bind_ok_inv h
      obtain ⟨tail, htail, h⟩ := bind_ok_inv h
      obtain rfl := Except.ok.inj h
      rcases List.mem_cons.mp hx with rfl | hxt
      · obtain ⟨r0, hr0⟩ := pyLower_ok_shape hrole
        exact ⟨⟨r0, by rw [hr0]⟩, pyOr_str_ne_null _ _, rfl⟩
      · exact ih htail x hxt
    | null => exact ih h x hx
    | bool b => exact ih h x hx
    | num n => exact ih h x hx
    | str s => exact ih h x hx
    | arr xs => exact ih h x hx

theorem aiChunkLoop_ok (chunks : List JValue)
    (h : (chunks.all fun ch =>
      match ch with
      | .obj ck => roleOK (jget ck "role")
      | _ => true) = true) :
    ∃ out, aiChunkLoop chunks = .ok out := by
  induction chunks with
  | nil => exact ⟨[], rfl⟩
  | cons ch rest ih =>
    rw [List.all_cons, Bool.and_eq_true] at h
    obtain ⟨hc, hrest⟩ := h
    obtain ⟨out, hout⟩ := ih hrest
    cases ch with
    | obj ck =>
      by_cases ht : (jget ck "isThought").truthy
      · refine ⟨out, ?_⟩
        unfold aiChunkLoop
        simp only [ht, if_true]
        exact hout
      · rw [Bool.not_eq_true] at ht
        obtain ⟨r, hr⟩ := pyLower_or_ok (jget ck "role") "assistant" hc
        have hstep : ∃ o, aiChunkLoop (JValue.obj ck :: rest) = .ok o := by
          unfold aiChunkLoop
          simp only [ht, Bool.false_eq_true, if_false, hr, hout, except_bind_ok]
          exact ⟨_, rfl⟩
        exact hstep
    | null => exact ⟨out, hout⟩
    | bool b => exact ⟨out, hout⟩
    | num n => exact ⟨out, hout⟩
    | str s => exact ⟨out, hout⟩
    | arr xs => exact ⟨out, hout⟩

theorem aiChunkLoop_msgs : ∀ {chunks : List JValue} {out : List NMsg},
    aiChunkLoop chunks = .ok out → ∀ x ∈ out, goodMsg x := by
  intro chunks
  induction chunks with
  | nil =>
    intro out h x hx
    cases h
    cases hx
  | cons ch rest ih =>
    intro out h x hx
    cases ch with
    | obj ck =>
      simp only [aiChunkLoop] at h
      by_cases ht : (jget ck "isThought").truthy = true
      · rw [if_pos ht] at h
        exact ih h x hx
      · rw [if_neg ht] at h
        obtain ⟨role, hrole, h⟩ := bind_ok_inv h
        obtain ⟨tail, htail, h⟩ := bind_ok_inv h
        obtain rfl := Except.ok.inj h
        rcases List.mem_cons.mp hx with rfl | hxt
        · obtain ⟨r0, hr0⟩ := pyLower_ok_shape hrole
          exact ⟨⟨r0, by rw [hr0]⟩, pyOr_str_ne_null _ _, rfl⟩
        · exact ih htail x hxt
    | null => exact ih h x hx
    | bool b => exact ih h x hx
    | num n => exact ih h x hx
    | str s => exact ih h x hx
    | arr xs => exact ih h x hx

theorem claudeLoop_ok (items : List JValue)
    (h : (items.all fun m =>
      match m with
      | .obj mk => roleOK (jget mk "role")
      | _ => true) = true) :
    ∃ out, claudeLoop items = .ok out := by
  induction items with
  | nil => exact ⟨[], rfl⟩
  | cons m rest ih =>
    rw [List.all_cons, Bool.and_eq_true] at h
    obtain ⟨hm, hrest⟩ := h
    obtain ⟨out, hout⟩ := ih hrest
    cases m with
    | obj mk =>
      obtain ⟨r, hr⟩ := pyLower_or_ok (jget mk "role") "" hm
      have hstep : ∃ o, claudeLoop (JValue.obj mk :: rest) = .ok o := by
        simp only [claudeLoop, hr, hout, except_bind_ok]
        split
        · exact ⟨_, rfl⟩
        · exact ⟨_, rfl⟩
      exact hstep
    | null => exact ⟨out, hout⟩
    | bool b => exact ⟨out, hout⟩
    | num n => exact ⟨out, hout⟩
    | str s => exact ⟨out, hout⟩
    | arr xs => exact ⟨out, hout⟩

theorem claudeLoop_msgs : ∀ {items : List JValue} {out : List NMsg},
    claudeLoop items = .ok out →
    ∀ x ∈ out, goodMsg x ∧ ∃ c, x.content = JValue.str c := by
  intro items
  induction items with
  | nil =>
    intro out h x hx
    cases h
    cases hx
  | cons m rest ih =>
    intro out h x hx
    cases m with
    | obj mk =>
      unfold claudeLoop at h
      obtain ⟨role, hrole, h⟩ := bind_ok_inv h
      obtain ⟨tail, htail, h⟩ := bind_ok_inv h
      split at h
      · obtain rfl := Except.ok.inj h
        rcases List.mem_cons.mp hx with rfl | hxt
        · obtain ⟨r0, hr0⟩ := pyLower_ok_shape hrole
          refine ⟨⟨⟨r0, by rw [hr0]⟩, ?_, rfl⟩, ⟨_, rfl⟩⟩
          intro hc
          cases hc
        · exact ih htail x hxt
      · obtain rfl := Except.ok.inj h
        exact ih htail x hx
    | null => exact ih h x hx
    | bool b => exact ih h x hx
    | num n => exact ih h x hx
    | str s => exact ih h x hx
    | arr xs => exact ih h x hx

theorem genericLoop_ok (items : List JValue)
    (h : (items.all fun m =>
      match m with
      | .obj mk => roleOK (jget mk "role")
      | _ => true) = true) :
    ∃ out, genericLoop items = .ok out := by
  induction items with
  | nil => exact ⟨[], rfl⟩
  | cons m rest ih =>
    rw [List.all_cons, Bool.and_eq_true] at h
    obtain ⟨hm, hrest⟩ := h
    obtain ⟨out, hout⟩ := ih hrest
    cases m with
    | obj mk =>
      obtain ⟨r, hr⟩ := pyLower_or_ok (jget mk "role") "" hm
      have hstep : ∃ o, genericLoop (JValue.obj mk :: rest) = .ok o := by
        simp only [genericLoop, hr, hout, except_bind_ok]
        exact ⟨_, rfl⟩
      exact hstep
    | null => exact ⟨out, hout⟩
    | bool b => exact ⟨out, hout⟩
    | num n => exact ⟨out, hout⟩
    | str s => exact ⟨out, hout⟩
    | arr xs => exact ⟨out, hout⟩

theorem genericLoop_msgs : ∀ {items : List JValue} {out : List NMsg},
    genericLoop items = .ok out → ∀ x ∈ out, goodMsg x := by
  intro items
  induction items with
  | nil =>
    intro out h x hx
    cases h
    cases hx
  | cons m rest ih =>
    intro out h x hx
    cases m with
    | obj mk =>
      unfold genericLoop at h
      obtain ⟨role, hrole, h⟩ := bind_ok_inv h
      obtain ⟨tail, htail, h⟩ := bind_ok_inv h
      obtain rfl := Except.ok.inj h
      rcases List.mem_cons.mp hx with rfl | hxt
      · obtain ⟨r0, hr0⟩ := pyLower_ok_shape hrole
        refine ⟨⟨r0, by rw [hr0]⟩, ?_, rfl⟩
        exact pyOr_ne_null _ _ (pyOr_str_ne_null _ _)
      · exact ih htail x hxt
    | null => exact ih h x hx
    | bool b => exact ih h x hx
    | num n => exact ih h x hx
    | str s => exact ih h x hx
    | arr xs => exact ih h x hx

theorem cpPath_ok (kvs : List (String × JValue)) (hcp : cpShapeOK kvs = true) :
    ∃ out, (do
      let cp ← pyGetObjD (JValue.obj kvs) "chunkedPrompt" (.obj [])
      let chunksv ← pyGetObj cp "chunks"
      match chunksv with
      | .arr chunks => aiChunkLoop chunks
      | _ => pure ([] : List NMsg)) = .ok out := by
  unfold cpShapeOK at hcp
  rw [show pyGetObjD (JValue.obj kvs) "chunkedPrompt" (.obj []) =
      .ok ((jlookup kvs "chunkedPrompt").getD (.obj [])) from rfl, except_bind_ok]
  cases hlk : jlookup kvs "chunkedPrompt" with
  | none => exact ⟨[], rfl⟩
  | some cp =>
    rw [hlk] at hcp
    cases cp with
    | obj ck =>
      have hcp2 : chunksShapeOK (jget ck "chunks") = true := hcp
      rw [show Option.getD (some (JValue.obj ck)) (JValue.obj []) = JValue.obj ck from rfl]
      rw [show pyGetObj (JValue.obj ck) "chunks" = .ok (jget ck "chunks") from rfl,
          except_bind_ok]
      unfold chunksShapeOK at hcp2
      cases hch : jget ck "chunks" with
      | arr chunks =>
        rw [hch] at hcp2
        exact aiChunkLoop_ok chunks hcp2
      | null => exact ⟨[], rfl⟩
      | bool b => exact ⟨[], rfl⟩
      | num n => exact ⟨[], rfl⟩
      | str t => exact ⟨[], rfl⟩
      | obj o => exact ⟨[], rfl⟩
    | null => simp at hcp
    | bool b => simp at hcp
    | num n => simp at hcp
    | str t => simp at hcp
    | arr xs => simp at hcp

theorem normAistudio_ok (data : JValue) (h : wfDoc data = true) :
    ∃ out, _normalize_aistudio data = .ok out := by
  cases data with
  | obj kvs =>
    unfold wfDoc at h
    rw [Bool.and_eq_true, Bool.and_eq_true] at h
    obtain ⟨⟨hmsgs, hcp⟩, _⟩ := h
    unfold _normalize_aistudio
    rw [show pyGetObj (JValue.obj kvs) "messages" = .ok (jget kvs "messages") from rfl,
        except_bind_ok]
    cases hmv : jget kvs "messages" with
    | arr items =>
      unfold msgsShapeOK at hmsgs
      rw [hmv] at hmsgs
      exact aiMsgLoop_ok items hmsgs
    | null => exact cpPath_ok kvs hcp
    | bool b => exact cpPath_ok kvs hcp
    | num n => exact cpPath_ok kvs hcp
    | str t => exact cpPath_ok kvs hcp
    | obj o => exact cpPath_ok kvs hcp
  | null => simp [wfDoc] at h
  | bool b => simp [wfDoc] at h
  | num n => simp [wfDoc] at h
  | str s => simp [wfDoc] at h
  | arr xs => simp [wfDoc] at h

theorem normAistudio_msgs {data : JValue} {out : List NMsg}
    (h : _normalize_aistudio data = .ok out) : ∀ x ∈ out, goodMsg x := by
  unfold _normalize_aistudio at h
  obtain ⟨mv, _hmv, h⟩ := bind_ok_inv h
  split at h
  · exact aiMsgLoop_msgs h
  · obtain ⟨cp, _hcp, h⟩ := bind_ok_inv h
    obtain ⟨chv, _hchv, h⟩ := bind_ok_inv h
    split at h
    · exact aiChunkLoop_msgs h
    · obtain rfl := Except.ok.inj h
      intro x hx
      cases hx

theorem normClaude_ok (data : JValue) (h : wfDoc data = true) :
    ∃ out, _normalize_claude data = .ok out := by
  cases data with
  | obj kvs =>
    unfold wfDoc at h
    rw [Bool.and_eq_true, Bool.and_eq_true] at h
    obtain ⟨⟨hmsgs, _⟩, _⟩ := h
    unfold _normalize_claude
    rw [show pyGetObj (JValue.obj kvs) "messages" = .ok (jget kvs "messages") from rfl,
        except_bind_ok]
    cases hmv : jget kvs "messages" with
    | arr items =>
      unfold msgsShapeOK at hmsgs
      rw [hmv] at hmsgs
      exact claudeLoop_ok items hmsgs
    | null => exact ⟨[], rfl⟩
    | bool b => exact ⟨[], rfl⟩
    | num n => exact ⟨[], rfl⟩
    | str t => exact ⟨[], rfl⟩
    | obj o => exact ⟨[], rfl⟩
  | null => simp [wfDoc] at h
  | bool b => simp [wfDoc] at h
  | num n => simp [wfDoc] at h
  | str s => simp [wfDoc] at h
  | arr xs => simp [wfDoc] at h

theorem normClaude_msgs {data : JValue} {out : List NMsg}
    (h : _normalize_claude data = .ok out) :
    ∀ x ∈ out, goodMsg x ∧ ∃ c, x.content = JValue.str c := by
  unfold _normalize_claude at h
  obtain ⟨mv, _hmv, h⟩ := bind_ok_inv h
  split at h
  · exact claudeLoop_msgs h
  · obtain rfl := Except.ok.inj h
    intro x hx
    cases hx

theorem genericMessages_ok (data : JValue) (h : wfDoc data = true) :
    ∃ out, genericMessages data = .ok out := by
  cases data with
  | obj kvs =>
    unfold wfDoc at h
    rw [Bool.and_eq_true, Bool.and_eq_true] at h
    obtain ⟨⟨hmsgs, _⟩, _⟩ := h
    unfold genericMessages
    rw [show pyGetObj (JValue.obj kvs) "messages" = .ok (jget kvs "messages") from rfl,
        except_bind_ok]
    cases hmv : jget kvs "messages" with
    | arr items =>
      unfold msgsShapeOK at hmsgs
      rw [hmv] at hmsgs
      exact genericLoop_ok items hmsgs
    | null => exact ⟨[], rfl⟩
    | bool b => exact ⟨[], rfl⟩
    | num n => exact ⟨[], rfl⟩
    | str t => exact ⟨[], rfl⟩
    | obj o => exact ⟨[], rfl⟩
  | null => simp [wfDoc] at h
  | bool b => simp [wfDoc] at h
  | num n => simp [wfDoc] at h
  | str s => simp [wfDoc] at h
  | arr xs => simp [wfDoc] at h

theorem genericMessages_msgs {data : JValue} {out : List NMsg}
    (h : genericMessages data = .ok out) : ∀ x ∈ out, goodMsg x := by
  unfold genericMessages at h
  obtain ⟨mv, _hmv, h⟩ := bind_ok_inv h
  split at h
  · exact genericLoop_msgs h
  · obtain rfl := Except.ok.inj h
    intro x hx
    cases hx

theorem except_pure_bind {ε α β : Type} (x : α) (f : α → Except ε β) :
    ((pure x : Except ε α) >>= f) = f x := rfl

theorem normalize_tail2_ok (data : JValue) (fmt : String) (o2 : List NMsg)
    (h : wfDoc data = true) : ∃ out, normalize_tail2 data fmt o2 = .ok out := by
  unfold normalize_tail2
  split
  · exact ⟨o2, rfl⟩
  · exact genericMessages_ok data h

theorem normalize_tail1_ok (data : JValue) (fmt : String) (o1 : List NMsg)
    (h : wfDoc data = true) : ∃ out, normalize_tail1 data fmt o1 = .ok out := by
  unfold normalize_tail1
  split
  · exact ⟨o1, rfl⟩
  · by_cases h3 : fmt = "claude"
    · obtain ⟨o2, ho2⟩ := normClaude_ok data h
      rw [if_pos h3, ho2, except_bind_ok]
      exact normalize_tail2_ok data fmt o2 h
    · rw [if_neg h3, except_pure_bind]
      exact normalize_tail2_ok data fmt [] h

theorem normalize_dispatch_ok (data : JValue) (fmt : String) (h : wfDoc data = true) :
    ∃ out, normalize_dispatch data fmt = .ok out := by
  unfold normalize_dispatch
  by_cases h1 : fmt = "aistudio"
  · rw [if_pos h1]
    exact normAistudio_ok data h
  · rw [if_neg h1]
    by_cases h2 : fmt = "chatgpt"
    · obtain ⟨o1, ho1⟩ := normChatgpt_ok data h
      rw [if_pos h2, ho1, except_bind_ok]
      exact normalize_tail1_ok data fmt o1 h
    · rw [if_neg h2, except_pure_bind]
      exact normalize_tail1_ok data fmt [] h

theorem normalize_tail2_msgs {data : JValue} {fmt : String} {o2 out : List NMsg}
    (h : normalize_tail2 data fmt o2 = .ok out)
    (ho2 : ∀ x ∈ o2, goodMsg x) : ∀ x ∈ out, goodMsg x := by
  unfold normalize_tail2 at h
  split at h
  · obtain rfl := Except.ok.inj h
    exact ho2
  · exact genericMessages_msgs h

theorem normalize_tail1_msgs {data : JValue} {fmt : String} {o1 out : List NMsg}
    (h : normalize_tail1 data fmt o1 = .ok out)
    (ho1 : ∀ x ∈ o1, goodMsg x) : ∀ x ∈ out, goodMsg x := by
  unfold normalize_tail1 at h
  split at h
  · obtain rfl := Except.ok.inj h
    exact ho1
  · obtain ⟨o2, ho2, h⟩ := bind_ok_inv h
    refine normalize_tail2_msgs h ?_
    split at ho2
    · exact fun x hx => (normClaude_msgs ho2 x hx).1
    · obtain rfl := Except.ok.inj ho2
      intro x hx
      cases hx

theorem normalize_dispatch_msgs {data : JValue} {fmt : String} {out : List NMsg}
    (h : normalize_dispatch data fmt = .ok out) : ∀ x ∈ out, goodMsg x := by
  unfold normalize_dispatch at h
  split at h
  · exact normAistudio_msgs h
  · obtain ⟨o1, ho1, h⟩ := bind_ok_inv h
    refine normalize_tail1_msgs h ?_
    split at ho1
    · exact normChatgpt_msgs ho1
    · obtain rfl := Except.ok.inj ho1
      intro x hx
      cases hx

/-! ## Claim theorems: detector and normalizer (C1, C2, C3, C8) -/

/-- C1, counterexample: the claim says `normalize_conversation` never raises
for any JSON input, "mapping or not".  For the non-mapping input `[]` under
format `auto` the generic fallback evaluates `data.get('messages')` on a
list, which raises `AttributeError`. -/
theorem C1_counterexample :
    normalize_conversation (.arr []) "auto" = .error "AttributeError" := rfl

/-- C1, amended: for every well-shaped input (a mapping whose reachable
`role` fields are strings or falsy, whose `chunkedPrompt`, when present, is a
mapping, and whose `mapping` node values are well-shaped, as captured by
`wfDoc`) and every requested format, `normalize_conversation` returns a list
and never raises; non-mapping/non-list elements inside the document are
skipped silently.  On ill-shaped input it can raise `AttributeError` /
`TypeError` (see `C1_counterexample`). -/
theorem C1_normalize_total_on_wellshaped (data : JValue) (prefer : String)
    (h : wfDoc data = true) :
    ∃ out, normalize_conversation data prefer = .ok out := by
  unfold normalize_conversation
  exact normalize_dispatch_ok data _ h

/-- C1, witness: a concrete well-shaped chatgpt-style document normalizes
without raising. -/
theorem C1_normalize_total_on_wellshaped_witness :
    wfDoc (JValue.obj [("mapping", JValue.obj [("a", JValue.obj [("message",
      JValue.obj [("author", JValue.obj [("role", JValue.str "USER")]),
                  ("content", JValue.obj [("parts", JValue.arr [JValue.str "hi"])])])])])])
      = true ∧
    ∃ out, normalize_conversation
      (JValue.obj [("mapping", JValue.obj [("a", JValue.obj [("message",
        JValue.obj [("author", JValue.obj [("role", JValue.str "USER")]),
                    ("content", JValue.obj [("parts", JValue.arr [JValue.str "hi"])])])])])])
      "chatgpt" = .ok out :=
  ⟨rfl, C1_normalize_total_on_wellshaped _ "chatgpt" rfl⟩

/-- C2, counterexample: the claim says every returned record's content is a
string.  For `{"messages":[{"role":"a","content":42}]}` under `auto` the
generic fallback passes the truthy non-string content `42` through
unchanged. -/
theorem C2_counterexample :
    normalize_conversation
      (.obj [("messages", .arr [.obj [("role", .str "a"), ("content", .num 42)]])]) "auto"
      = .ok [⟨.str "a", .num 42, .null, .obj []⟩] ∧
    (NMsg.content ⟨.str "a", .num 42, .null, .obj []⟩).isStr = false :=
  ⟨rfl, rfl⟩

/-- C2, amended: every record returned by `normalize_conversation` has a
lower-cased string role, a content field that is never absent (the empty
string is substituted for missing/falsy content), and a mapping `meta`; but
content is not always a string — a truthy non-string source content passes
through unchanged in the aistudio and generic paths (see
`C2_counterexample`). -/
theorem C2_record_shape (data : JValue) (prefer : String) (out : List NMsg)
    (h : normalize_conversation data prefer = .ok out) :
    ∀ x ∈ out, (∃ s, x.role = JValue.str (strLower s)) ∧
      x.content ≠ JValue.null ∧ x.meta.isObj = true := by
  unfold normalize_conversation at h
  exact fun x hx => normalize_dispatch_msgs h x hx

/-- C2, witness: the invariant holds on a concrete normalized record. -/
theorem C2_record_shape_witness :
    (⟨JValue.str "assistant", JValue.str "hey", JValue.str "t", JValue.obj []⟩ : NMsg).content
      ≠ JValue.null :=
  (C2_record_shape
    (.obj [("messages", .arr [.obj [("role", .str "assistant"),
      ("content", .arr [.obj [("text", .str "hey")]]), ("timestamp", .str "t")]])])
    "claude"
    [⟨JValue.str "assistant", JValue.str "hey", JValue.str "t", JValue.obj []⟩]
    rfl _ (List.mem_singleton.mpr rfl)).2.1

/-- C3: `detect_source_format` returns `unknown` for every non-mapping
input, and classifies mappings in fixed priority order: any of
`run_settings` / `runSettings` / `chunkedPrompt` / `systemInstruction`
yields `aistudio` (even when a `messages` array is also present, since no
further condition is consulted); otherwise `mapping` / `current_node` yields
`chatgpt`; otherwise a list-valued `messages` with at least one mapping
element whose role is `user` or `assistant` yields `claude`; otherwise
`unknown`. -/
theorem C3_detector_priority :
    (∀ v : JValue, v.isObj = false → detect_source_format v = "unknown") ∧
    (∀ kvs : List (String × JValue),
      (hasKey kvs "run_settings" || hasKey kvs "runSettings" ||
       hasKey kvs "chunkedPrompt" || hasKey kvs "systemInstruction") = true →
      detect_source_format (.obj kvs) = "aistudio") ∧
    (∀ kvs : List (String × JValue),
      (hasKey kvs "run_settings" || hasKey kvs "runSettings" ||
       hasKey kvs "chunkedPrompt" || hasKey kvs "systemInstruction") = false →
      (hasKey kvs "mapping" || hasKey kvs "current_node") = true →
      detect_source_format (.obj kvs) = "chatgpt") ∧
    (∀ (kvs : List (String × JValue)) (ms : List JValue),
      (hasKey kvs "run_settings" || hasKey kvs "runSettings" ||
       hasKey kvs "chunkedPrompt" || hasKey kvs "systemInstruction") = false →
      (hasKey kvs "mapping" || hasKey kvs "current_node") = false →
      jlookup kvs "messages" = some (.arr ms) →
      ms.any claudeRoleHit = true →
      detect_source_format (.obj kvs) = "claude") ∧
    (∀ kvs : List (String × JValue),
      (hasKey kvs "run_settings" || hasKey kvs "runSettings" ||
       hasKey kvs "chunkedPrompt" || hasKey kvs "systemInstruction") = false →
      (hasKey kvs "mapping" || hasKey kvs "current_node") = false →
      (∀ ms : List JValue, jlookup kvs "messages" = some (.arr ms) →
        ms.any claudeRoleHit = false) →
      detect_source_format (.obj kvs) = "unknown") := by
  refine ⟨?_, ?_, ?_, ?_, ?_⟩
  · intro v hv
    cases v <;> first | rfl | simp [JValue.isObj] at hv
  · intro kvs hai
    show (if (hasKey kvs "run_settings" || hasKey kvs "runSettings" ||
        hasKey kvs "chunkedPrompt" || hasKey kvs "systemInstruction") = true
      then "aistudio" else _) = "aistudio"
    rw [if_pos hai]
  · intro kvs hai hcg
    show (if (hasKey kvs "run_settings" || hasKey kvs "runSettings" ||
        hasKey kvs "chunkedPrompt" || hasKey kvs "systemInstruction") = true
      then "aistudio"
      else if (hasKey kvs "mapping" || hasKey kvs "current_node") = true
      then "chatgpt" else _) = "chatgpt"
    rw [if_neg (by simp [hai]), if_pos hcg]
  · intro kvs ms hai hcg hms hhit
    show (if (hasKey kvs "run_settings" || hasKey kvs "runSettings" ||
        hasKey kvs "chunkedPrompt" || hasKey kvs "systemInstruction") = true
      then "aistudio"
      else if (hasKey kvs "mapping" || hasKey kvs "current_node") = true
      then "chatgpt"
      else match jlookup kvs "messages" with
        | some (.arr ms) => if ms.any claudeRoleHit = true then "claude" else "unknown"
        | _ => "unknown") = "claude"
    rw [if_neg (by simp [hai]), if_neg (by simp [hcg]), hms]
    show (if ms.any claudeRoleHit = true then "claude" else "unknown") = "claude"
    rw [if_pos hhit]
  · intro kvs hai hcg hnone
    show (if (hasKey kvs "run_settings" || hasKey kvs "runSettings" ||
        hasKey kvs "chunkedPrompt" || hasKey kvs "systemInstruction") = true
      then "aistudio"
      else if (hasKey kvs "mapping" || hasKey kvs "current_node") = true
      then "chatgpt"
      else match jlookup kvs "messages" with
        | some (.arr ms) => if ms.any claudeRoleHit = true then "claude" else "unknown"
        | _ => "unknown") = "unknown"
    rw [if_neg (by simp [hai]), if_neg (by simp [hcg])]
    cases hms : jlookup kvs "messages" with
    | none => rfl
    | some v =>
      cases v with
      | arr ms =>
        show (if ms.any claudeRoleHit = true then "claude" else "unknown") = "unknown"
        rw [if_neg (by simp [hnone ms hms])]
      | null => rfl
      | bool b => rfl
      | num n => rfl
      | str s => rfl
      | obj o => rfl

/-- C3, witness: aistudio keys outrank a present `messages` array. -/
theorem C3_detector_priority_witness :
    detect_source_format (.obj [("runSettings", .obj []), ("messages", .arr [])])
      = "aistudio" :=
  C3_detector_priority.2.1 _ rfl

/-- C8: the concrete document
`{"messages":[{"role":"assistant","content":[{"text":"hey"}],"timestamp":"t"}]}`
under forced format `claude` yields exactly one message with role
`assistant` and content `"hey"`; and in general the claude path lower-cases
roles, keeps only entries whose final content is a string, and
newline-joins segment lists via `claudeSegJoin` (mapping segments
contribute their `text` field, string segments pass through). -/
theorem C8_claude_path :
    (normalize_conversation
      (.obj [("messages", .arr [.obj [("role", .str "assistant"),
        ("content", .arr [.obj [("text", .str "hey")]]), ("timestamp", .str "t")]])])
      "claude"
      = .ok [⟨.str "assistant", .str "hey", .str "t", .obj []⟩]) ∧
    (∀ (data : JValue) (out : List NMsg), _normalize_claude data = .ok out →
      ∀ x ∈ out, (∃ s, x.role = JValue.str (strLower s)) ∧
        (∃ c, x.content = JValue.str c)) ∧
    (∀ (r : String) (segs : List JValue),
      _normalize_claude
        (.obj [("messages", .arr [.obj [("role", .str r), ("content", .arr segs)]])])
        = .ok [⟨.str (strLower r), .str (claudeSegJoin segs), .null, .obj []⟩]) := by
  refine ⟨rfl, ?_, ?_⟩
  · intro data out h x hx
    obtain ⟨hg, hc⟩ := normClaude_msgs h x hx
    exact ⟨hg.1, hc⟩
  · intro r segs
    have h1 : pyLower (pyOr
        (jget [("role", JValue.str r), ("content", JValue.arr segs)] "role") (.str ""))
        = .ok (strLower r) := by
      by_cases hr : r = ""
      · subst hr
        rfl
      · have hor : pyOr (JValue.str r) (.str "") = .str r := by
          simp [pyOr, JValue.truthy, hr]
        rw [show jget [("role", JValue.str r), ("content", JValue.arr segs)] "role"
            = JValue.str r from rfl, hor]
        rfl
    show claudeLoop [JValue.obj [("role", JValue.str r), ("content", JValue.arr segs)]]
      = .ok [⟨.str (strLower r), .str (claudeSegJoin segs), .null, .obj []⟩]
    simp only [claudeLoop, h1, except_bind_ok]
    rfl

/-- C8, witness: the single-entry characterisation evaluates on a concrete
role and segment list. -/
theorem C8_claude_path_witness :
    _normalize_claude
      (.obj [("messages", .arr [.obj [("role", .str "Assistant"),
        ("content", .arr [.str "x", .obj [("text", .str "y")]])]])])
      = .ok [⟨.str (strLower "Assistant"),
             .str (claudeSegJoin [.str "x", .obj [("text", .str "y")]]),
             .null, .obj []⟩] :=
  C8_claude_path.2.2 "Assistant" [.str "x", .obj [("text", .str "y")]]

/-! ## Lemmas about the settings default-merge -/

theorem mergeStep_error (e : String) (kv : String × JValue) :
    mergeStep (.error e) kv = .error e := rfl

theorem mergeFold_error (ds : List (String × JValue)) (e : String) :
    ds.foldl mergeStep (.error e) = .error e := by
  induction ds with
  | nil => rfl
  | cons kv rest ih => rw [List.foldl_cons, mergeStep_error]; exact ih

theorem jlookup_append (a b : List (String × JValue)) (q : String) :
    jlookup (a ++ b) q = (jlookup a q <|> jlookup b q) := by
  induction a with
  | nil => rfl
  | cons kv rest ih =>
    obtain ⟨k, v⟩ := kv
    show (if k = q then some v else jlookup (rest ++ b) q)
      = ((if k = q then some v else jlookup rest q) <|> jlookup b q)
    by_cases hk : k = q
    · rw [if_pos hk, if_pos hk]
      rfl
    · rw [if_neg hk, if_neg hk, ih]

theorem hasKey_some {cur : List (String × JValue)} {k : String}
    (h : hasKey cur k = true) : ∃ v, jlookup cur k = some v := by
  unfold hasKey at h
  cases hl : jlookup cur k with
  | none => rw [hl] at h; cases h
  | some v => exact ⟨v, rfl⟩

theorem hasKey_none {cur : List (String × JValue)} {k : String}
    (h : hasKey cur k = false) : jlookup cur k = none := by
  unfold hasKey at h
  cases hl : jlookup cur k with
  | none => rfl
  | some v => rw [hl] at h; cases h

theorem mergeFold_obj : ∀ (ds : List (String × JValue)) (cur : List (String × JValue)),
    ∃ out, ds.foldl mergeStep (.ok (.obj cur)) = .ok (.obj out) ∧
      ∀ q, jlookup out q = (jlookup cur q <|> jlookup ds q) := by
  intro ds
  induction ds with
  | nil =>
    intro cur
    refine ⟨cur, rfl, fun q => ?_⟩
    cases jlookup cur q <;> rfl
  | cons kv rest ih =>
    intro cur
    obtain ⟨k, dv⟩ := kv
    by_cases hk : hasKey cur k = true
    · have hstep : mergeStep (.ok (.obj cur)) (k, dv) = .ok (.obj cur) := by
        simp [mergeStep, pyContains, except_bind_ok, except_pure, hk]
      rw [List.foldl_cons, hstep]
      obtain ⟨out, hout, hlk⟩ := ih cur
      refine ⟨out, hout, fun q => ?_⟩
      rw [hlk q]
      obtain ⟨v0, hv0⟩ := hasKey_some hk
      by_cases hq : k = q
      · subst hq
        rw [hv0]
        rfl
      · show (jlookup cur q <|> jlookup rest q)
          = (jlookup cur q <|> (if k = q then some dv else jlookup rest q))
        rw [if_neg hq]
    · rw [Bool.not_eq_true] at hk
      have hstep : mergeStep (.ok (.obj cur)) (k, dv) = .ok (.obj (cur ++ [(k, dv)])) := by
        simp [mergeStep, pyContains, except_bind_ok, except_pure, hk, pySetItem]
      rw [List.foldl_cons, hstep]
      obtain ⟨out, hout, hlk⟩ := ih (cur ++ [(k, dv)])
      refine ⟨out, hout, fun q => ?_⟩
      rw [hlk q, jlookup_append]
      have hcn := hasKey_none hk
      by_cases hq : k = q
      · subst hq
        have h1 : jlookup [(k, dv)] k = some dv := by simp [jlookup]
        have h2 : jlookup ((k, dv) :: rest) k = some dv := by simp [jlookup]
        rw [hcn, h1, h2]
        rfl
      · have h1 : jlookup [(k, dv)] q = none := by simp [jlookup, hq]
        have h2 : jlookup ((k, dv) :: rest) q = jlookup rest q := by simp [jlookup, hq]
        rw [h1, h2]
        cases jlookup cur q <;> rfl

theorem mergeFold_arr : ∀ (ds : List (String × JValue)) (xs : List JValue),
    ds.foldl mergeStep (.ok (.arr xs)) =
      if (ds.all fun kv => pyInList xs kv.1) = true
      then .ok (.arr xs) else .error "TypeError" := by
  intro ds
  induction ds with
  | nil => intro xs; rfl
  | cons kv rest ih =>
    intro xs
    obtain ⟨k, dv⟩ := kv
    by_cases hc : pyInList xs k = true
    · have hstep : mergeStep (.ok (.arr xs)) (k, dv) = .ok (.arr xs) := by
        simp [mergeStep, pyContains, except_bind_ok, except_pure, hc]
      rw [List.foldl_cons, hstep, ih]
      congr 1
      simp [List.all_cons, hc]
    · rw [Bool.not_eq_true] at hc
      have hstep : mergeStep (.ok (.arr xs)) (k, dv) = .error "TypeError" := by
        simp [mergeStep, pyContains, except_bind_ok, except_pure, hc, pySetItem]
      rw [List.foldl_cons, hstep, mergeFold_error]
      rw [if_neg (by simp [List.all_cons, hc])]

theorem mergeFold_str : ∀ (ds : List (String × JValue)) (s : String),
    ds.foldl mergeStep (.ok (.str s)) =
      if (ds.all fun kv => strContains s kv.1) = true
      then .ok (.str s) else .error "TypeError" := by
  intro ds
  induction ds with
  | nil => intro s; rfl
  | cons kv rest ih =>
    intro s
    obtain ⟨k, dv⟩ := kv
    by_cases hc : strContains s k = true
    · have hstep : mergeStep (.ok (.str s)) (k, dv) = .ok (.str s) := by
        simp [mergeStep, pyContains, except_bind_ok, except_pure, hc]
      rw [List.foldl_cons, hstep, ih]
      congr 1
      simp [List.all_cons, hc]
    · rw [Bool.not_eq_true] at hc
      have hstep : mergeStep (.ok (.str s)) (k, dv) = .error "TypeError" := by
        simp [mergeStep, pyContains, except_bind_ok, except_pure, hc, pySetItem]
      rw [List.foldl_cons, hstep, mergeFold_error]
      rw [if_neg (by simp [List.all_cons, hc])]

/-! ## Claim theorems: settings store (C10) -/

/-- C10, counterexample: the claim says a successfully parsed non-object
settings file (for example a list) makes the default-merge raise an uncaught
TypeError.  But a list containing every default key name passes every
`key not in loaded_settings` test, so no assignment is attempted and the
list itself is returned. -/
theorem C10_counterexample :
    load_settings (.present (.ok (.arr
      [.str "source_dir", .str "dest_dir", .str "source_format", .str "theme",
       .str "include_metadata", .str "include_timestamps", .str "overwrite_existing",
       .str "create_subfolders", .str "include_json_structure", .str "add_file_headers",
       .str "include_system_prompt", .str "include_run_settings", .str "exclude_thoughts",
       .str "dry_run", .str "rename_extensionless", .str "workers", .str "export_format",
       .str "template_path", .str "html_template_path", .str "enable_yaml_front_matter",
       .str "watch_enabled", .str "export_pdf", .str "export_docx", .str "zip_output",
       .str "zip_name", .str "recent_projects"])))
    = .ok (.arr
      [.str "source_dir", .str "dest_dir", .str "source_format", .str "theme",
       .str "include_metadata", .str "include_timestamps", .str "overwrite_existing",
       .str "create_subfolders", .str "include_json_structure", .str "add_file_headers",
       .str "include_system_prompt", .str "include_run_settings", .str "exclude_thoughts",
       .str "dry_run", .str "rename_extensionless", .str "workers", .str "export_format",
       .str "template_path", .str "html_template_path", .str "enable_yaml_front_matter",
       .str "watch_enabled", .str "export_pdf", .str "export_docx", .str "zip_output",
       .str "zip_name", .str "recent_projects"]) := rfl

/-- C10, amended: `load_settings` falls back to the defaults exactly on a
missing file, a JSON decode error, or an IO/OS error.  When the file parses
to an object, every default key missing from it is filled in and every other
binding (including unknown extra keys) is preserved.  When it parses to a
non-object, the default-merge raises an uncaught TypeError unless Python's
`in` finds every default key in the value — a list containing all 26 default
key names, or a string containing each name as a substring, is returned
unchanged; `null`, booleans and numbers always raise TypeError. -/
theorem C10_load_settings :
    (load_settings .missing = .ok (.obj get_default_settings)) ∧
    (load_settings .ioError = .ok (.obj get_default_settings)) ∧
    (∀ e, load_settings (.present (.error e)) = .ok (.obj get_default_settings)) ∧
    (∀ kvs : List (String × JValue), ∃ out,
      load_settings (.present (.ok (.obj kvs))) = .ok (.obj out) ∧
      ∀ q, jlookup out q = (jlookup kvs q <|> jlookup get_default_settings q)) ∧
    (∀ xs : List JValue,
      load_settings (.present (.ok (.arr xs))) =
        if (get_default_settings.all fun kv => pyInList xs kv.1) = true
        then .ok (.arr xs) else .error "TypeError") ∧
    (∀ s : String,
      load_settings (.present (.ok (.str s))) =
        if (get_default_settings.all fun kv => strContains s kv.1) = true
        then .ok (.str s) else .error "TypeError") ∧
    (load_settings (.present (.ok .null)) = .error "TypeError") ∧
    (∀ b, load_settings (.present (.ok (.bool b))) = .error "TypeError") ∧
    (∀ n : Int, load_settings (.present (.ok (.num n))) = .error "TypeError") := by
  refine ⟨rfl, rfl, fun e => rfl, ?_, ?_, ?_, rfl, fun b => rfl, fun n => rfl⟩
  · intro kvs
    exact mergeFold_obj get_default_settings kvs
  · intro xs
    exact mergeFold_arr get_default_settings xs
  · intro s
    exact mergeFold_str get_default_settings s

/-! ## Claim theorems: run-settings safety summary (C5) -/

theorem safetyBlockNone_iff (s : JValue) :
    safetyBlockNone s = true ↔
      ∃ sk, s = JValue.obj sk ∧ jget sk "threshold" = .str "BLOCK_NONE" := by
  constructor
  · intro h
    cases s with
    | obj sk =>
      refine ⟨sk, rfl, ?_⟩
      have h2 : (match jget sk "threshold" with
        | JValue.str t => t == "BLOCK_NONE"
        | _ => false) = true := h
      cases ht : jget sk "threshold" with
      | str t =>
        rw [ht] at h2
        simp at h2
        rw [h2]
      | null => rw [ht] at h2; cases h2
      | bool b => rw [ht] at h2; cases h2
      | num n => rw [ht] at h2; cases h2
      | arr xs => rw [ht] at h2; cases h2
      | obj o => rw [ht] at h2; cases h2
    | null => cases h
    | bool b => cases h
    | num n => cases h
    | str t => cases h
    | arr xs => cases h
  · rintro ⟨sk, rfl, ht⟩
    show (match jget sk "threshold" with
      | JValue.str t => t == "BLOCK_NONE"
      | _ => false) = true
    rw [ht]
    simp

/-- C5: when the run settings contain a non-empty `safetySettings` list, the
Run Settings section ends with exactly one safety summary line, and that
line is `- safety: BLOCK_NONE (все категории)` (spec gloss: "BLOCK_NONE
(all categories)") if and only if every safety entry is a mapping whose
`threshold` equals `BLOCK_NONE`; otherwise it is `- safety: custom`. -/
theorem C5_safety_summary (kvs : List (String × JValue)) (l : List JValue)
    (hs : jget kvs "safetySettings" = .arr l) (hne : l ≠ []) :
    ∃ pre line, format_run_settings (.obj kvs) = pre ++ [line] ∧
      ((line = "- safety: BLOCK_NONE (все категории)") ↔
        ∀ s ∈ l, ∃ sk, s = JValue.obj sk ∧ jget sk "threshold" = .str "BLOCK_NONE") ∧
      (line = "- safety: BLOCK_NONE (все категории)" ∨ line = "- safety: custom") := by
  have hnotempty : ¬(l.isEmpty = true) := by
    cases l with
    | nil => exact absurd rfl hne
    | cons a as => intro hc; cases hc
  have hsl : runSettingsSafetyLines kvs =
      [if l.all safetyBlockNone then "- safety: BLOCK_NONE (все категории)"
       else "- safety: custom"] := by
    unfold runSettingsSafetyLines
    rw [hs]
    show (if l.isEmpty = true then [] else
      [if l.all safetyBlockNone = true then "- safety: BLOCK_NONE (все категории)"
       else "- safety: custom"]) = _
    rw [if_neg hnotempty]
  refine ⟨runSettingsNumericLines kvs ++ runSettingsFlagLines kvs,
    (if l.all safetyBlockNone then "- safety: BLOCK_NONE (все категории)"
     else "- safety: custom"), ?_, ?_, ?_⟩
  · show (runSettingsNumericLines kvs ++ runSettingsFlagLines kvs ++
      runSettingsSafetyLines kvs) = _
    rw [hsl, List.append_assoc]
  · by_cases hall : l.all safetyBlockNone = true
    · rw [if_pos hall]
      refine iff_of_true rfl ?_
      intro s hsmem
      exact (safetyBlockNone_iff s).mp (List.all_eq_true.mp hall s hsmem)
    · rw [if_neg hall]
      refine iff_of_false (by decide) ?_
      intro hforall
      exact hall (List.all_eq_true.mpr fun s hsmem =>
        (safetyBlockNone_iff s).mpr (hforall s hsmem))
  · by_cases hall : l.all safetyBlockNone = true
    · rw [if_pos hall]
      exact Or.inl rfl
    · rw [if_neg hall]
      exact Or.inr rfl

/-- C5, witness: a concrete run-settings object with one BLOCK_NONE entry. -/
theorem C5_safety_summary_witness :
    ∃ pre line, format_run_settings
      (.obj [("safetySettings", .arr [.obj [("threshold", .str "BLOCK_NONE")]])])
      = pre ++ [line] ∧
      ((line = "- safety: BLOCK_NONE (все категории)") ↔
        ∀ s ∈ [JValue.obj [("threshold", JValue.str "BLOCK_NONE")]],
          ∃ sk, s = JValue.obj sk ∧ jget sk "threshold" = .str "BLOCK_NONE") ∧
      (line = "- safety: BLOCK_NONE (все категории)" ∨ line = "- safety: custom") :=
  C5_safety_summary _ [JValue.obj [("threshold", JValue.str "BLOCK_NONE")]] rfl
    (by simp)

/-! ## Claim theorems: batch glob filtering (C6) -/

/-- C6: the batch filter applies include/exclude globs to each file's path
relative to `source_dir`: a file is kept iff it was enumerated, it matches
at least one include pattern (or none were given), and it matches no
exclude pattern — in particular an exclude match removes a file even when
it also matched an include pattern, and with no patterns at all every
enumerated file passes. -/
theorem C6_glob_filtering (files : List String) (src : String)
    (inc exc : List String) (p : String) :
    p ∈ applyGlobFilters files src inc exc ↔
      p ∈ files ∧
      (inc = [] ∨ ∃ pat ∈ inc, fnmatch (relpath p src) pat = true) ∧
      ¬∃ pat ∈ exc, fnmatch (relpath p src) pat = true := by
  unfold applyGlobFilters
  split
  · rw [List.mem_filter]
    constructor
    · rintro ⟨hmem, hp⟩
      rw [Bool.and_eq_true] at hp
      obtain ⟨hinc, hexc⟩ := hp
      refine ⟨hmem, ?_, ?_⟩
      · by_cases hie : inc.isEmpty
        · exact Or.inl (List.isEmpty_iff.mp hie)
        · rw [if_neg hie] at hinc
          obtain ⟨pat, hpat, hm⟩ := List.any_eq_true.mp hinc
          exact Or.inr ⟨pat, hpat, hm⟩
      · rw [Bool.not_eq_true'] at hexc
        intro ⟨pat, hpat, hm⟩
        have := List.any_eq_true.mpr ⟨pat, hpat, hm⟩
        rw [this] at hexc
        cases hexc
    · rintro ⟨hmem, hinc, hexc⟩
      refine ⟨hmem, ?_⟩
      rw [Bool.and_eq_true]
      constructor
      · rcases hinc with hnil | ⟨pat, hpat, hm⟩
        · rw [if_pos (by rw [hnil]; rfl)]
        · rw [if_neg (by
            intro hie
            rw [List.isEmpty_iff.mp hie] at hpat
            cases hpat)]
          exact List.any_eq_true.mpr ⟨pat, hpat, hm⟩
      · rw [Bool.not_eq_true']
        cases hany : exc.any fun pat => fnmatch (relpath p src) pat
        · rfl
        · obtain ⟨pat, hpat, hm⟩ := List.any_eq_true.mp hany
          exact absurd ⟨pat, hpat, hm⟩ hexc
  · rename_i hno
    rw [not_or] at hno
    obtain ⟨hi, he⟩ := hno
    rw [not_not] at hi he
    constructor
    · intro hmem
      refine ⟨hmem, Or.inl hi, ?_⟩
      rintro ⟨pat, hpat, _⟩
      rw [he] at hpat
      cases hpat
    · exact fun h => h.1

/-! ## Lemmas and claim theorem: CLI batch exit codes (C7) -/

theorem dqPut_error (q : DQFlags) (t : String) :
    (dqPut q t).seen_error = (q.seen_error || (t == "error")) := by
  unfold dqPut
  by_cases h1 : t = "warning"
  · subst h1
    simp
  · rw [if_neg h1]
    by_cases h2 : t = "error"
    · subst h2
      simp
    · rw [if_neg h2]
      by_cases h3 : t = "success"
      · subst h3
        simp
      · rw [if_neg h3]
        simp [h2]

theorem dqPut_warning (q : DQFlags) (t : String) :
    (dqPut q t).seen_warning = (q.seen_warning || (t == "warning")) := by
  unfold dqPut
  by_cases h1 : t = "warning"
  · subst h1
    simp
  · rw [if_neg h1]
    by_cases h2 : t = "error"
    · subst h2
      simp
    · rw [if_neg h2]
      by_cases h3 : t = "success"
      · subst h3
        simp
      · rw [if_neg h3]
        simp [h1]

theorem dqPut_success (q : DQFlags) (t : String) :
    (dqPut q t).seen_success = (q.seen_success || (t == "success")) := by
  unfold dqPut
  by_cases h1 : t = "warning"
  · subst h1
    simp
  · rw [if_neg h1]
    by_cases h2 : t = "error"
    · subst h2
      simp
    · rw [if_neg h2]
      by_cases h3 : t = "success"
      · subst h3
        simp
      · rw [if_neg h3]
        simp [h3]

theorem dqFold_error (evts : List String) : ∀ q : DQFlags,
    (evts.foldl dqPut q).seen_error = (q.seen_error || evts.contains "error") := by
  induction evts with
  | nil => intro q; simp
  | cons t rest ih =>
    intro q
    rw [List.foldl_cons, ih, dqPut_error, List.contains_cons]
    cases q.seen_error with
    | true => simp
    | false =>
      cases ht : (t == "error") with
      | true =>
        have h1 : t = "error" := by simpa using ht
        subst h1
        simp
      | false =>
        have h1 : ¬ t = "error" := by simpa using ht
        simp [ht]
        intro h
        exact absurd h.symm h1

theorem dqFold_warning (evts : List String) : ∀ q : DQFlags,
    (evts.foldl dqPut q).seen_warning = (q.seen_warning || evts.contains "warning") := by
  induction evts with
  | nil => intro q; simp
  | cons t rest ih =>
    intro q
    rw [List.foldl_cons, ih, dqPut_warning, List.contains_cons]
    cases q.seen_warning with
    | true => simp
    | false =>
      cases ht : (t == "warning") with
      | true =>
        have h1 : t = "warning" := by simpa using ht
        subst h1
        simp
      | false =>
        have h1 : ¬ t = "warning" := by simpa using ht
        simp [ht]
        intro h
        exact absurd h.symm h1

theorem dqFold_success (evts : List String) : ∀ q : DQFlags,
    (evts.foldl dqPut q).seen_success = (q.seen_success || evts.contains "success") := by
  induction evts with
  | nil => intro q; simp
  | cons t rest ih =>
    intro q
    rw [List.foldl_cons, ih, dqPut_success, List.contains_cons]
    cases q.seen_success with
    | true => simp
    | false =>
      cases ht : (t == "success") with
      | true =>
        have h1 : t = "success" := by simpa using ht
        subst h1
        simp
      | false =>
        have h1 : ¬ t = "success" := by simpa using ht
        simp [ht]
        intro h
        exact absurd h.symm h1

/-- C7: the CLI batch tool's exit code is a function of the observed
progress events: 2 on user interrupt (which also sets the cooperative
cancel flag — the second component), else 2 when any error event was seen,
else 1 when any warning event was seen, else 0 when a success event was
seen, else 1. -/
theorem C7_batch_exit_codes (events : List String) (interrupted : Bool) :
    batchExit events interrupted =
      (if interrupted then 2
       else if events.contains "error" then 2
       else if events.contains "warning" then 1
       else if events.contains "success" then 0
       else 1,
       interrupted) := by
  unfold batchExit
  cases interrupted with
  | true => simp
  | false =>
    simp only [Bool.false_eq_true, if_false]
    rw [dqFold_error, dqFold_warning, dqFold_success]
    simp

/-! ## Filesystem lemmas for convert_single_file -/

theorem lookupFileList_setFile_self (files : List (String × String)) (p c : String) :
    lookupFileList (setFile files p c) p = some c := by
  induction files with
  | nil => simp [setFile, lookupFileList]
  | cons hd tl ih =>
    obtain ⟨q, d⟩ := hd
    by_cases h : q = p
    · simp [setFile, h, lookupFileList]
    · simp [setFile, h, lookupFileList, ih]

theorem lookupFileList_setFile_ne (files : List (String × String)) (p c q : String)
    (h : q ≠ p) : lookupFileList (setFile files p c) q = lookupFileList files q := by
  induction files with
  | nil => simp [setFile, lookupFileList, Ne.symm h]
  | cons hd tl ih =>
    obtain ⟨r, d⟩ := hd
    by_cases hr : r = p
    · subst hr; simp [setFile, lookupFileList, Ne.symm h]
    · simp [setFile, hr, lookupFileList, ih]

theorem FS.write_lookup_self (fs : FS) (p c : String) :
    (fs.write p c).lookupFile p = some c :=
  lookupFileList_setFile_self fs.files p c

theorem FS.write_lookup_ne (fs : FS) (p c q : String) (h : q ≠ p) :
    (fs.write p c).lookupFile q = fs.lookupFile q :=
  lookupFileList_setFile_ne fs.files p c q h

theorem FS.write_dirs (fs : FS) (p c : String) : (fs.write p c).dirs = fs.dirs := rfl

theorem FS.mkdir_lookup (fs : FS) (d q : String) :
    (fs.mkdir d).lookupFile q = fs.lookupFile q := rfl

theorem FS.mkdir_files (fs : FS) (d : String) : (fs.mkdir d).files = fs.files := rfl

theorem FS.mkdir_contains_self (fs : FS) (d : String) :
    (fs.mkdir d).dirs.contains d = true := by
  unfold FS.mkdir
  by_cases h : d ∈ fs.dirs <;> simp [h]

theorem FS.mkdir_contains_mono (fs : FS) (d x : String)
    (h : fs.dirs.contains x = true) : (fs.mkdir d).dirs.contains x = true := by
  have h2 : x ∈ fs.dirs := by simpa using h
  unfold FS.mkdir
  by_cases hc : d ∈ fs.dirs <;> simp [hc, h2]

theorem FS.write_isSome_mono (fs : FS) (p c q : String)
    (h : (fs.lookupFile q).isSome = true) :
    ((fs.write p c).lookupFile q).isSome = true := by
  by_cases hq : q = p
  · subst hq; rw [FS.write_lookup_self]; rfl
  · rw [FS.write_lookup_ne fs p c q hq]; exact h

theorem attAction_write_path (ext : PyExt) (a b : String)
    (att : Option String × Option String × Option String) (c : Nat) (p cc : String)
    (h : (attAction ext a b att c).2.1 = some (p, cc)) : ∃ f, p = joinPath a f := by
  obtain ⟨bb, mm, uu⟩ := att
  by_cases hu : (uu.getD "") ≠ ""
  · simp [attAction, hu] at h
  · rcases bb with _ | b0 <;> rcases mm with _ | m0 <;>
      [simp [attAction, hu] at h; simp [attAction, hu] at h;
       simp [attAction, hu] at h; skip]
    by_cases hbm : b0 ≠ "" ∧ m0 ≠ ""
    · rcases hdec : ext.b64decode b0 with _ | raw
      · simp [attAction, hu, hbm, hdec] at h
      · have h2 : some (joinPath a ("att_" ++ toString c ++
            (if guessExtensionFromMime ext m0 = "" then "_" ++ toString c
             else guessExtensionFromMime ext m0)), raw) = some (p, cc) := by
          rw [← h]
          simp [attAction, hu, hbm, hdec]
        exact ⟨_, (congrArg Prod.fst (Option.some.inj h2)).symm⟩
    · simp [attAction, hu, hbm] at h

theorem saveAtts_dirs (ext : PyExt) (a b : String) (dr : Bool)
    (atts : List (Option String × Option String × Option String)) :
    ∀ (c : Nat) (l : List String) (fs : FS),
    (saveAtts ext a b dr atts c l fs).2.dirs = fs.dirs := by
  induction atts with
  | nil => intro c l fs; rfl
  | cons att rest ih =>
    intro c l fs
    rcases hA : attAction ext a b att c with ⟨lk, wr, c2⟩
    simp only [saveAtts, hA]
    rcases wr with _ | ⟨pp, cc⟩
    · simp [ih]
    · cases dr <;> simp [ih, FS.write_dirs]

theorem saveAtts_files_dry (ext : PyExt) (a b : String)
    (atts : List (Option String × Option String × Option String)) :
    ∀ (c : Nat) (l : List String) (fs : FS),
    (saveAtts ext a b true atts c l fs).2 = fs := by
  induction atts with
  | nil => intro c l fs; rfl
  | cons att rest ih =>
    intro c l fs
    rcases hA : attAction ext a b att c with ⟨lk, wr, c2⟩
    simp only [saveAtts, hA]
    rcases wr with _ | ⟨pp, cc⟩ <;> simp [ih]

theorem saveAtts_lookup_ne (ext : PyExt) (a b : String) (dr : Bool) (q : String)
    (hq : ∀ f, q ≠ joinPath a f)
    (atts : List (Option String × Option String × Option String)) :
    ∀ (c : Nat) (l : List String) (fs : FS),
    (saveAtts ext a b dr atts c l fs).2.lookupFile q = fs.lookupFile q := by
  induction atts with
  | nil => intro c l fs; rfl
  | cons att rest ih =>
    intro c l fs
    rcases hA : attAction ext a b att c with ⟨lk, wr, c2⟩
    simp only [saveAtts, hA]
    rcases wr with _ | ⟨pp, cc⟩
    · simp [ih]
    · have hne : q ≠ pp := by
        obtain ⟨f, hf⟩ := attAction_write_path ext a b att c pp cc (by rw [hA])
        rw [hf]; exact hq f
      cases dr
      · simp only [Bool.false_eq_true, if_false]
        rw [ih, FS.write_lookup_ne _ _ _ _ hne]
      · simp only [if_true]
        rw [ih]

theorem saveAtts_isSome_mono (ext : PyExt) (a b : String) (dr : Bool) (q : String)
    (atts : List (Option String × Option String × Option String)) :
    ∀ (c : Nat) (l : List String) (fs : FS),
    (fs.lookupFile q).isSome = true →
    ((saveAtts ext a b dr atts c l fs).2.lookupFile q).isSome = true := by
  induction atts with
  | nil => intro c l fs h; exact h
  | cons att rest ih =>
    intro c l fs h
    rcases hA : attAction ext a b att c with ⟨lk, wr, c2⟩
    simp only [saveAtts, hA]
    rcases wr with _ | ⟨pp, cc⟩
    · exact ih c2 _ fs h
    · cases dr
      · simp only [Bool.false_eq_true, if_false]
        exact ih c2 _ _ (FS.write_isSome_mono fs pp cc q h)
      · simp only [if_true]
        exact ih c2 _ fs h

theorem saveAtts_writes (ext : PyExt) (a b : String) (q : String)
    (atts : List (Option String × Option String × Option String)) :
    ∀ (c : Nat) (l : List String) (fs : FS),
    q ∈ attWritePaths ext a b atts c →
    ((saveAtts ext a b false atts c l fs).2.lookupFile q).isSome = true := by
  induction atts with
  | nil => intro c l fs h; simp [attWritePaths] at h
  | cons att rest ih =>
    intro c l fs h
    rcases hA : attAction ext a b att c with ⟨lk, wr, c2⟩
    simp only [attWritePaths, hA] at h
    simp only [saveAtts, hA]
    rcases wr with _ | ⟨pp, cc⟩
    · simp only [List.nil_append] at h
      exact ih c2 _ fs h
    · simp only [List.cons_append, List.nil_append, List.mem_cons] at h
      rcases h with hq | hq
    

      · subst hq
        simp only [Bool.false_eq_true, if_false]
        exact saveAtts_isSome_mono ext a b false q rest c2 _ _
          (by rw [FS.write_lookup_self]; rfl)
      · simp only [Bool.false_eq_true, if_false]
        exact ih c2 _ _ hq

theorem joinPath_data (a b : String) :
    (joinPath a b).data = (if a = "" then b.data else a.data ++ '/' :: b.data) := by
  unfold joinPath
  split
  · rfl
  · simp [String.data_append]

theorem append_ne_data (s t : String) : (s ++ "_assets" ++ t).data ≠ [] := by
  simp [String.data_append]

theorem assetsPath_ne (fd b f sfx : String) (hh : sfx.data.head? ≠ some '_') :
    joinPath (joinPath fd (b ++ "_assets")) f ≠ joinPath fd (b ++ sfx) := by
  intro h
  by_cases hfd : fd = ""
  · subst hfd
    have hj : joinPath "" (b ++ "_assets") = b ++ "_assets" := by simp [joinPath]
    rw [hj] at h
    have hA : ¬(b ++ "_assets" = "") := by
      intro hc
      have := congrArg String.data hc
      simp [String.data_append] at this
    have hd := congrArg String.data h
    rw [joinPath_data, if_neg hA, joinPath_data, if_pos rfl,
      String.data_append, String.data_append, List.append_assoc] at hd
    have h2 := List.append_cancel_left hd
    exact hh (h2 ▸ rfl)
  · have hA : ¬(joinPath fd (b ++ "_assets") = "") := by
      intro hc
      have h3 := congrArg String.data hc
      rw [joinPath_data, if_neg hfd] at h3
      simp [String.data_append] at h3
    have hd := congrArg String.data h
    rw [joinPath_data, if_neg hA, joinPath_data, if_neg hfd, joinPath_data, if_neg hfd,
      String.data_append, String.data_append] at hd
    simp only [List.append_assoc, List.cons_append] at hd
    have h2 := List.append_cancel_left hd
    simp only [List.cons.injEq, true_and] at h2
    have h3 := List.append_cancel_left h2
    exact hh (h3 ▸ rfl)

theorem FS.condMkdir_lookup (fs : FS) (c : Bool) (dd q : String) :
    (if c = true then fs.mkdir dd else fs).lookupFile q = fs.lookupFile q := by
  cases c <;> rfl

theorem FS.condMkdir_files (fs : FS) (c : Bool) (dd : String) :
    (if c = true then fs.mkdir dd else fs).files = fs.files := by
  cases c <;> rfl

theorem FS.condMkdir_contains_mono (fs : FS) (c : Bool) (dd x : String)
    (h : fs.dirs.contains x = true) :
    (if c = true then fs.mkdir dd else fs).dirs.contains x = true := by
  cases c
  · simpa using h
  · simp only [if_pos rfl]
    exact FS.mkdir_contains_mono fs dd x h

theorem convAttsRun_lookup (ext : PyExt) (data : JValue) (p d : String)
    (s : CSettings) (fs : FS) (q : String)
    (hq : ∀ f, q ≠ joinPath (convAssetsDir p d s) f) :
    (convAttsRun ext data p d s fs).2.lookupFile q = fs.lookupFile q := by
  simp only [convAttsRun]
  cases he : (findAtts data).isEmpty
  · simp only [Bool.false_eq_true, if_false]
    rw [saveAtts_lookup_ne ext (convAssetsDir p d s) (splitextBase (basename p))
      s.dry_run q hq (findAtts data), FS.mkdir_lookup]
    exact FS.condMkdir_lookup fs _ _ q
  · simp only [if_pos rfl]
    exact FS.condMkdir_lookup fs _ _ q

theorem convAttsRun_dirs_mono (ext : PyExt) (data : JValue) (p d : String)
    (s : CSettings) (fs : FS) (x : String) (h : fs.dirs.contains x = true) :
    (convAttsRun ext data p d s fs).2.dirs.contains x = true := by
  simp only [convAttsRun]
  cases he : (findAtts data).isEmpty
  · simp only [Bool.false_eq_true, if_false]
    rw [saveAtts_dirs]
    exact FS.mkdir_contains_mono _ _ x (FS.condMkdir_contains_mono fs _ _ x h)
  · simp only [if_pos rfl]
    exact FS.condMkdir_contains_mono fs _ _ x h

theorem convAttsRun_assets_dir (ext : PyExt) (data : JValue) (p d : String)
    (s : CSettings) (fs : FS) (he : (findAtts data).isEmpty = false) :
    (convAttsRun ext data p d s fs).2.dirs.contains (convAssetsDir p d s) = true := by
  simp only [convAttsRun]
  rw [he]
  simp only [Bool.false_eq_true, if_false]
  rw [saveAtts_dirs]
  exact FS.mkdir_contains_self _ _

theorem convAttsRun_files_dry (ext : PyExt) (data : JValue) (p d : String)
    (s : CSettings) (fs : FS) (hdry : s.dry_run = true) :
    (convAttsRun ext data p d s fs).2.files = fs.files := by
  simp only [convAttsRun]
  rw [hdry]
  cases he : (findAtts data).isEmpty
  · simp only [Bool.false_eq_true, if_false]
    rw [saveAtts_files_dry, FS.mkdir_files]
    exact FS.condMkdir_files fs _ _
  · simp only [if_pos rfl]
    exact FS.condMkdir_files fs _ _

theorem convAttsRun_exists_mono (ext : PyExt) (data : JValue) (p d : String)
    (s : CSettings) (fs : FS) (q : String)
    (hq : ∀ f, q ≠ joinPath (convAssetsDir p d s) f)
    (h : fs.pathExists q = true) :
    (convAttsRun ext data p d s fs).2.pathExists q = true := by
  unfold FS.pathExists at h ⊢
  rw [convAttsRun_lookup ext data p d s fs q hq]
  rcases Bool.or_eq_true_iff.mp h with h1 | h2
  · rw [h1]; rfl
  · rw [convAttsRun_dirs_mono ext data p d s fs q h2]
    simp

theorem FS.write_exists_self (fs : FS) (p c : String) :
    (fs.write p c).pathExists p = true := by
  unfold FS.pathExists
  rw [FS.write_lookup_self]
  rfl

theorem FS.write_exists_mono (fs : FS) (p c q : String)
    (h : fs.pathExists q = true) : (fs.write p c).pathExists q = true := by
  unfold FS.pathExists at h ⊢
  rcases Bool.or_eq_true_iff.mp h with h1 | h2
  · rw [FS.write_isSome_mono fs p c q h1]
    rfl
  · rw [FS.write_dirs, h2]
    simp

theorem convertTail_fst (ext : PyExt) (data : JValue) (p d : String)
    (s : CSettings) (core : ExtractCore) (dt m : JValue) (fs : FS) :
    (convertTail ext data p d s core dt m fs).1 = true := by
  simp only [convertTail]
  split
  · rfl
  · rfl

theorem convertTail_dry (ext : PyExt) (data : JValue) (p d : String)
    (s : CSettings) (core : ExtractCore) (dt m : JValue) (fs : FS)
    (hdry : s.dry_run = true) :
    convertTail ext data p d s core dt m fs = (true, (convAttsRun ext data p d s fs).2) := by
  simp only [convertTail, hdry, if_true]

theorem convertTail_skip (ext : PyExt) (data : JValue) (p d : String)
    (s : CSettings) (core : ExtractCore) (dt m : JValue) (fs : FS)
    (hdry : s.dry_run = false) (hover : s.overwrite_existing = false)
    (hmd : (exportFormat s == "md" || exportFormat s == "both") = true →
      (convAttsRun ext data p d s fs).2.pathExists (convMdPath p d s) = true)
    (hhtml : (exportFormat s == "html" || exportFormat s == "both") = true →
      (convAttsRun ext data p d s fs).2.pathExists (convHtmlPath p d s) = true) :
    convertTail ext data p d s core dt m fs = (true, (convAttsRun ext data p d s fs).2) := by
  have hm2 : ((exportFormat s == "md" || exportFormat s == "both") &&
      !((convAttsRun ext data p d s fs).2.pathExists (convMdPath p d s) &&
        !s.overwrite_existing)) = false := by
    cases hw : (exportFormat s == "md" || exportFormat s == "both")
    · simp
    · simp [hover, hmd hw]
  have hh2 : ((exportFormat s == "html" || exportFormat s == "both") &&
      !((convAttsRun ext data p d s fs).2.pathExists (convHtmlPath p d s) &&
        !s.overwrite_existing)) = false := by
    cases hw : (exportFormat s == "html" || exportFormat s == "both")
    · simp
    · simp [hover, hhtml hw]
  simp only [convertTail, hdry, Bool.false_eq_true, if_false, hm2, hh2]

theorem convertTail_ensures_md (ext : PyExt) (data : JValue) (p d : String)
    (s : CSettings) (core : ExtractCore) (dt m : JValue) (fs : FS)
    (hdry : s.dry_run = false)
    (hwm : (exportFormat s == "md" || exportFormat s == "both") = true) :
    (convertTail ext data p d s core dt m fs).2.pathExists (convMdPath p d s) = true := by
  simp only [convertTail, hdry, Bool.false_eq_true, if_false, hwm, Bool.true_and]
  have h3 : ∀ X : String, FS.pathExists
      (if (!((convAttsRun ext data p d s fs).2.pathExists (convMdPath p d s) &&
          !s.overwrite_existing)) = true
       then ((convAttsRun ext data p d s fs).2).write (convMdPath p d s) X
       else (convAttsRun ext data p d s fs).2) (convMdPath p d s) = true := by
    intro X
    split
    · exact FS.write_exists_self _ _ _
    · next h =>
      have hX : ((convAttsRun ext data p d s fs).2.pathExists (convMdPath p d s) &&
          !s.overwrite_existing) = true := by simpa using h
      exact (Bool.and_eq_true_iff.mp hX).1
  split
  · exact FS.write_exists_mono _ _ _ _ (h3 _)
  · exact h3 _

theorem convertTail_ensures_html (ext : PyExt) (data : JValue) (p d : String)
    (s : CSettings) (core : ExtractCore) (dt m : JValue) (fs : FS)
    (hdry : s.dry_run = false)
    (hwh : (exportFormat s == "html" || exportFormat s == "both") = true) :
    (convertTail ext data p d s core dt m fs).2.pathExists (convHtmlPath p d s) = true := by
  simp only [convertTail, hdry, Bool.false_eq_true, if_false, hwh, Bool.true_and]
  have hEh : ∀ fsx : FS, fsx.pathExists (convHtmlPath p d s) = true →
      ∀ (c : Bool) (X : String), FS.pathExists
        (if c = true then fsx.write (convMdPath p d s) X else fsx) (convHtmlPath p d s) = true := by
    intro fsx hx c X
    split
    · exact FS.write_exists_mono _ _ _ _ hx
    · exact hx
  split
  · exact FS.write_exists_self _ _ _
  · next h =>
    have hX : ((convAttsRun ext data p d s fs).2.pathExists (convHtmlPath p d s) &&
        !s.overwrite_existing) = true := by simpa using h
    exact hEh _ ((Bool.and_eq_true_iff.mp hX).1) _ _

theorem mdPath_ne_assets (p d : String) (s : CSettings) :
    ∀ f, convMdPath p d s ≠ joinPath (convAssetsDir p d s) f := by
  intro f h
  exact assetsPath_ne (convFinalDest p d s) (splitextBase (basename p)) f ".md"
    (by decide) h.symm

theorem htmlPath_ne_assets (p d : String) (s : CSettings) :
    ∀ f, convHtmlPath p d s ≠ joinPath (convAssetsDir p d s) f := by
  intro f h
  exact assetsPath_ne (convFinalDest p d s) (splitextBase (basename p)) f ".html"
    (by decide) h.symm

/-- C4: when `dry_run` is off and `overwrite_existing` is false, running
`convert_single_file` a second time into the same destination (with the
same parsed input and settings, under possibly different timestamps and
third-party library behaviour) returns `True` rather than failure, and
leaves both previously produced output files (the `.md` and the `.html`
path) byte-for-byte unchanged. -/
theorem C4_second_run_skips_and_preserves (ext1 ext2 : PyExt)
    (parsed : Except Unit JValue) (p d : String) (s : CSettings) (fs0 fs1 : FS)
    (hdry : s.dry_run = false) (hover : s.overwrite_existing = false)
    (h1 : convert_single_file ext1 parsed p d s fs0 = (true, fs1)) :
    (convert_single_file ext2 parsed p d s fs1).1 = true ∧
    (convert_single_file ext2 parsed p d s fs1).2.lookupFile (convMdPath p d s) =
      fs1.lookupFile (convMdPath p d s) ∧
    (convert_single_file ext2 parsed p d s fs1).2.lookupFile (convHtmlPath p d s) =
      fs1.lookupFile (convHtmlPath p d s) := by
  cases parsed with
  | error e => simp [convert_single_file] at h1
  | ok data =>
    cases hprep : convertPrep data { s with sourceBasename := splitextBase (basename p) } with
    | error e =>
      simp only [convert_single_file, hprep] at h1
      simp at h1
    | ok trip =>
      obtain ⟨core, dt, m⟩ := trip
      simp only [convert_single_file, hprep] at h1 ⊢
      have hdry' : CSettings.dry_run
          { s with sourceBasename := splitextBase (basename p) } = false := hdry
      have hover' : CSettings.overwrite_existing
          { s with sourceBasename := splitextBase (basename p) } = false := hover
      have hmd1 : (exportFormat { s with sourceBasename := splitextBase (basename p) } == "md" ||
          exportFormat { s with sourceBasename := splitextBase (basename p) } == "both") = true →
          fs1.pathExists (convMdPath p d
            { s with sourceBasename := splitextBase (basename p) }) = true := by
        intro hw
        have h2 := convertTail_ensures_md ext1 data p d
          { s with sourceBasename := splitextBase (basename p) } core dt m fs0 hdry' hw
        rw [h1] at h2
        exact h2
      have hh1 : (exportFormat { s with sourceBasename := splitextBase (basename p) } == "html" ||
          exportFormat { s with sourceBasename := splitextBase (basename p) } == "both") = true →
          fs1.pathExists (convHtmlPath p d
            { s with sourceBasename := splitextBase (basename p) }) = true := by
        intro hw
        have h2 := convertTail_ensures_html ext1 data p d
          { s with sourceBasename := splitextBase (basename p) } core dt m fs0 hdry' hw
        rw [h1] at h2
        exact h2
      have hskip := convertTail_skip ext2 data p d
        { s with sourceBasename := splitextBase (basename p) } core dt m fs1 hdry' hover'
        (fun hw => convAttsRun_exists_mono ext2 data p d _ fs1 _
          (mdPath_ne_assets p d _) (hmd1 hw))
        (fun hw => convAttsRun_exists_mono ext2 data p d _ fs1 _
          (htmlPath_ne_assets p d _) (hh1 hw))
      rw [hskip]
      refine ⟨rfl, ?_, ?_⟩
      · exact convAttsRun_lookup ext2 data p d _ fs1 _ (mdPath_ne_assets p d _)
      · exact convAttsRun_lookup ext2 data p d _ fs1 _ (htmlPath_ne_assets p d _)

/-- C9: with an existing destination markdown file and
`overwrite_existing=false` (markdown export, no dry-run),
`convert_single_file` still returns `True`, leaves the existing markdown
untouched, yet creates the `<basename>_assets` directory and writes every
inline attachment file the walk finds — the attachment stage runs before
and is not guarded by the existing-output skip check; only `dry_run`
suppresses the file writes (directories are still created). -/
theorem C9_attachments_despite_skip (ext : PyExt) (data : JValue) (p d : String)
    (s : CSettings) (fs0 : FS) (c0 : String)
    (hdry : s.dry_run = false) (hover : s.overwrite_existing = false)
    (hef : exportFormat s = "md")
    (hprep : ∃ pr, convertPrep data
      { s with sourceBasename := splitextBase (basename p) } = .ok pr)
    (hprep2 : ∃ pr2, convertPrep data
      { { s with dry_run := true } with
        sourceBasename := splitextBase (basename p) } = .ok pr2)
    (hmd : fs0.lookupFile (convMdPath p d s) = some c0) :
    (convert_single_file ext (.ok data) p d s fs0).1 = true ∧
    (convert_single_file ext (.ok data) p d s fs0).2.lookupFile (convMdPath p d s) =
      some c0 ∧
    ((findAtts data).isEmpty = false →
      (convert_single_file ext (.ok data) p d s fs0).2.dirs.contains
        (convAssetsDir p d s) = true) ∧
    (∀ q ∈ attWritePaths ext (convAssetsDir p d s) (splitextBase (basename p))
        (findAtts data) 1,
      ((convert_single_file ext (.ok data) p d s fs0).2.lookupFile q).isSome = true) ∧
    (convert_single_file ext (.ok data) p d { s with dry_run := true } fs0).2.files =
      fs0.files := by
  obtain ⟨pr, hprep⟩ := hprep
  obtain ⟨core, dt, m⟩ := pr
  obtain ⟨pr2, hprep2⟩ := hprep2
  obtain ⟨core2, dt2, m2⟩ := pr2
  have hdry' : CSettings.dry_run
      { s with sourceBasename := splitextBase (basename p) } = false := hdry
  have hover' : CSettings.overwrite_existing
      { s with sourceBasename := splitextBase (basename p) } = false := hover
  have hef' : exportFormat { s with sourceBasename := splitextBase (basename p) } = "md" := hef
  have hfs0 : fs0.pathExists (convMdPath p d
      { s with sourceBasename := splitextBase (basename p) }) = true := by
    unfold FS.pathExists
    rw [show fs0.lookupFile (convMdPath p d
      { s with sourceBasename := splitextBase (basename p) }) = some c0 from hmd]
    rfl
  have hmdskip : (exportFormat { s with sourceBasename := splitextBase (basename p) } == "md" ||
      exportFormat { s with sourceBasename := splitextBase (basename p) } == "both") = true →
      (convAttsRun ext data p d { s with sourceBasename := splitextBase (basename p) }
        fs0).2.pathExists (convMdPath p d
          { s with sourceBasename := splitextBase (basename p) }) = true := by
    intro hw
    exact convAttsRun_exists_mono ext data p d _ fs0 _ (mdPath_ne_assets p d _) hfs0
  have hhskip : (exportFormat { s with sourceBasename := splitextBase (basename p) } == "html" ||
      exportFormat { s with sourceBasename := splitextBase (basename p) } == "both") = true →
      (convAttsRun ext data p d { s with sourceBasename := splitextBase (basename p) }
        fs0).2.pathExists (convHtmlPath p d
          { s with sourceBasename := splitextBase (basename p) }) = true := by
    intro hw
    rw [hef'] at hw
    exact absurd hw (by decide)
  have hskip := convertTail_skip ext data p d
    { s with sourceBasename := splitextBase (basename p) } core dt m fs0 hdry' hover'
    hmdskip hhskip
  refine ⟨?_, ?_, ?_, ?_, ?_⟩
  · simp only [convert_single_file, hprep]
    rw [hskip]
  · simp only [convert_single_file, hprep]
    rw [hskip]
    have h2 := convAttsRun_lookup ext data p d
      { s with sourceBasename := splitextBase (basename p) } fs0
      (convMdPath p d { s with sourceBasename := splitextBase (basename p) })
      (mdPath_ne_assets p d _)
    rw [show ((true, (convAttsRun ext data p d
        { s with sourceBasename := splitextBase (basename p) } fs0).2) :
        Bool × FS).2.lookupFile (convMdPath p d s) =
      (convAttsRun ext data p d { s with sourceBasename := splitextBase (basename p) }
        fs0).2.lookupFile (convMdPath p d s) from rfl]
    exact h2.trans hmd
  · intro hne
    simp only [convert_single_file, hprep]
    rw [hskip]
    exact convAttsRun_assets_dir ext data p d _ fs0 hne
  · intro q hq
    simp only [convert_single_file, hprep]
    rw [hskip]
    cases he : (findAtts data).isEmpty
    · have hgoal : ((saveAtts ext (convAssetsDir p d
          { s with sourceBasename := splitextBase (basename p) })
          (splitextBase (basename p)) false (findAtts data) 1 []
          ((if convMakesSubdir p { s with sourceBasename := splitextBase (basename p) } = true
            then fs0.mkdir (convFinalDest p d
              { s with sourceBasename := splitextBase (basename p) })
            else fs0).mkdir (convAssetsDir p d
              { s with sourceBasename := splitextBase (basename p) }))).2.lookupFile
          q).isSome = true :=
        saveAtts_writes ext _ _ q (findAtts data) 1 _ _ hq
      simp only [convAttsRun, he, Bool.false_eq_true, if_false, hdry]
      exact hgoal
    · rw [List.isEmpty_iff] at he
      rw [he] at hq
      simp [attWritePaths] at hq
  · simp only [convert_single_file, hprep2]
    rw [convertTail_dry ext data p d _ core2 dt2 m2 fs0 rfl]
    exact convAttsRun_files_dry ext data p d _ fs0 rfl

/-- Witness for C4: a concrete second run over the output of a concrete
first run returns `True` and leaves both output paths unchanged. -/
theorem C4_second_run_skips_and_preserves_witness :
    (CSettings.dry_run convSettingsSample = false ∧
     CSettings.overwrite_existing convSettingsSample = false ∧
     convert_single_file extSample (.ok convDocSample) "conv.json" "out"
       convSettingsSample (FS.mk [] []) = (true, convFs1Sample)) ∧
    ((convert_single_file extSample (.ok convDocSample) "conv.json" "out"
        convSettingsSample convFs1Sample).1 = true ∧
     (convert_single_file extSample (.ok convDocSample) "conv.json" "out"
        convSettingsSample convFs1Sample).2.lookupFile
          (convMdPath "conv.json" "out" convSettingsSample) =
       convFs1Sample.lookupFile (convMdPath "conv.json" "out" convSettingsSample) ∧
     (convert_single_file extSample (.ok convDocSample) "conv.json" "out"
        convSettingsSample convFs1Sample).2.lookupFile
          (convHtmlPath "conv.json" "out" convSettingsSample) =
       convFs1Sample.lookupFile (convHtmlPath "conv.json" "out" convSettingsSample)) :=
  ⟨⟨rfl, rfl, rfl⟩,
   C4_second_run_skips_and_preserves extSample extSample (.ok convDocSample)
     "conv.json" "out" convSettingsSample (FS.mk [] []) convFs1Sample rfl rfl rfl⟩

/-- Witness for C9: with the sample markdown output already present, a
conversion still succeeds, keeps the markdown, creates the assets
directory and writes the attachment; the dry-run variant leaves the files
untouched. -/
theorem C9_attachments_despite_skip_witness :
    (CSettings.dry_run convSettingsSample = false ∧
     CSettings.overwrite_existing convSettingsSample = false ∧
     exportFormat convSettingsSample = "md" ∧
     convFs1Sample.lookupFile (convMdPath "conv.json" "out" convSettingsSample) =
       some convMdContentSample) ∧
    ((convert_single_file extSample (.ok convDocSample) "conv.json" "out"
        convSettingsSample convFs1Sample).1 = true ∧
     (convert_single_file extSample (.ok convDocSample) "conv.json" "out"
        convSettingsSample convFs1Sample).2.lookupFile
          (convMdPath "conv.json" "out" convSettingsSample) = some convMdContentSample ∧
     ((findAtts convDocSample).isEmpty = false →
       (convert_single_file extSample (.ok convDocSample) "conv.json" "out"
          convSettingsSample convFs1Sample).2.dirs.contains
            (convAssetsDir "conv.json" "out" convSettingsSample) = true) ∧
     (∀ q ∈ attWritePaths extSample (convAssetsDir "conv.json" "out" convSettingsSample)
         (splitextBase (basename "conv.json")) (findAtts convDocSample) 1,
       ((convert_single_file extSample (.ok convDocSample) "conv.json" "out"
          convSettingsSample convFs1Sample).2.lookupFile q).isSome = true) ∧
     (convert_single_file extSample (.ok convDocSample) "conv.json" "out"
        { convSettingsSample with dry_run := true } convFs1Sample).2.files =
       convFs1Sample.files) :=
  ⟨⟨rfl, rfl, rfl, rfl⟩,
   C9_attachments_despite_skip extSample convDocSample "conv.json" "out"
     convSettingsSample convFs1Sample convMdContentSample rfl rfl rfl
     ⟨_, rfl⟩ ⟨_, rfl⟩ rfl⟩
